import Mathlib

/-!
# Verification of the x402scan statistics service

Shallow embedding of the SQL statistics service of `x402scan`
(`src/services/cdp/sql/stats/overall.ts`, `src/services/cdp/sql/stats/bucketed.ts`,
and the top-sellers module), and proofs about its post-processing and SQL
assembly.

Conventions of the embedding:
* JavaScript numbers that hold timestamps, counts and bucket parameters are
  embedded as `Int` (the code only ever combines integral values; `Math.floor`
  of a real division of integers is embedded as `Int.fdiv`, which rounds
  toward negative infinity exactly as `Math.floor` does).
* `Date` values are embedded as their `getTime()` value: milliseconds since
  the epoch, an `Int`.
* The SQL engine (`runBaseSqlQuery`) is external: each embedded operation
  takes the (already schema-decoded) query result as an explicit argument,
  `Option (List _)` mirroring the `null` check in the source.
* Fallible code returns `Except String _`; `throw new Error(msg)` is
  `Except.error msg`.
-/

namespace X402Scan

/-! ## Data model: rows of the bucketed-statistics query

The zod `outputSchema` of `getBucketedStatisticsUncached`
(`bucketed.ts` lines 31‑37): `bucket_start` is a date (embedded as
milliseconds), the four statistics are numbers. -/

structure StatsRow where
  bucket_start : Int
  total_transactions : Int
  total_amount : Int
  unique_buyers : Int
  unique_sellers : Int
deriving DecidableEq, Repr

/-- `bucketed.ts` lines 40‑42:
`timeRangeMs = endDate.getTime() - startDate.getTime()`,
`bucketSizeMs = Math.floor(timeRangeMs / numBuckets)`,
`bucketSizeSeconds = Math.max(1, Math.floor(bucketSizeMs / 1000))`.
The same three lines appear verbatim at lines 283‑285 of
`getBucketedFacilitatorsStatisticsUncached`. (For `numBuckets ≤ 0` the
JavaScript division is non-finite / `NaN`; no claim reads the value there.) -/
def bucketSizeSeconds (startMs endMs numBuckets : Int) : Int :=
  max 1 (Int.fdiv (Int.fdiv (endMs - startMs) numBuckets) 1000)

/-- `bucketed.ts` lines 45‑47:
`startTimestamp = Math.floor(startDate.getTime() / 1000)`,
`firstBucketStartTimestamp = Math.floor(startTimestamp / bucketSizeSeconds) * bucketSizeSeconds`
(value in seconds). -/
def firstBucketStartTimestamp (startMs bucketSize : Int) : Int :=
  Int.fdiv (Int.fdiv startMs 1000) bucketSize * bucketSize

/-- `bucketed.ts` lines 84‑95 build `dataMap = new Map(result.map(item => [item.bucket_start.getTime(), item]))`
(the value object copies all five fields of `item` unchanged);
a JavaScript `Map` built from a list with duplicate keys keeps the **last**
entry for a key, so `dataMap.get(k)` is the last row whose
`bucket_start.getTime()` equals `k`. -/
def dataMapGet (result : List StatsRow) (k : Int) : Option StatsRow :=
  result.reverse.find? (fun r => r.bucket_start == k)

/-- The zero row pushed for a missing bucket, `bucketed.ts` lines 112‑118. -/
def zeroRow (bucketStartMs : Int) : StatsRow :=
  ⟨bucketStartMs, 0, 0, 0, 0⟩

/-- Body of one iteration of the loop at `bucketed.ts` lines 98‑120:
look the bucket key up in `dataMap`; push the existing row if present,
the zero row otherwise. -/
def bucketEntry (result : List StatsRow) (bucketKey : Int) : StatsRow :=
  match dataMapGet result bucketKey with
  | some existing => existing
  | none => zeroRow bucketKey

/-- The key (in milliseconds, `bucketStart.getTime()`) of the `i`-th bucket,
`bucketed.ts` lines 100‑105:
`bucketStartTimestamp = firstBucketStartTimestamp + i * bucketSizeSeconds`,
`bucketStart = new Date(bucketStartTimestamp * 1000)`. -/
def bucketKeyAt (startMs endMs numBuckets : Int) (i : Nat) : Int :=
  (firstBucketStartTimestamp startMs (bucketSizeSeconds startMs endMs numBuckets) +
    (i : Int) * bucketSizeSeconds startMs endMs numBuckets) * 1000

/-- `bucketed.ts` lines 82‑122: the zero-filling loop
`for (let i = 0; i < numBuckets; i++)`.  The loop body runs for
`i = 0, …, numBuckets - 1`, i.e. `numBuckets.toNat` times. -/
def getBucketedSeries (startMs endMs numBuckets : Int) (result : List StatsRow) :
    List StatsRow :=
  (List.range numBuckets.toNat).map (fun i =>
    bucketEntry result (bucketKeyAt startMs endMs numBuckets i))

/-- `bucketed.ts` lines 76‑122 after the query has returned: the `null`
check (lines 78‑80) returns `[]`, otherwise the zero-filled series. -/
def getBucketedStatisticsProcess (startMs endMs numBuckets : Int)
    (result : Option (List StatsRow)) : List StatsRow :=
  match result with
  | none => []
  | some rows => getBucketedSeries startMs endMs numBuckets rows

/-! ## Data model: the overall-statistics query (`overall.ts`)

The zod `outputSchema` of `getOverallStatisticsUncached` (`overall.ts`
lines 24‑30); `latest_block_timestamp` is a date, embedded as milliseconds. -/

structure OverallRow where
  total_transactions : Int
  total_amount : Int
  unique_buyers : Int
  unique_sellers : Int
  latest_block_timestamp : Int
deriving DecidableEq, Repr

/-- `overall.ts` lines 57‑74: `if (!result || result.length === 0)` return
the all-zero record with `latest_block_timestamp: new Date()` (the current
time `now`), otherwise return the five fields of `result[0]`. -/
def overallProcess (now : Int) (result : Option (List OverallRow)) : OverallRow :=
  match result with
  | none => ⟨0, 0, 0, 0, now⟩
  | some [] => ⟨0, 0, 0, 0, now⟩
  | some (data :: _) =>
    ⟨data.total_transactions, data.total_amount, data.unique_buyers,
      data.unique_sellers, data.latest_block_timestamp⟩

/-! ## Input schemas

The input schemas extend `baseQuerySchema` (from `../lib`, not under `src/`)
with per-operation fields.  The schema combinators themselves (zod,
`ethereumAddressSchema`, `baseQuerySchema`) are not in the repository
snapshot, so they are modelled from the spec's description "input validation
(schema-based)" over on-chain addresses. -/

/-- Modelled from the spec: `ethereumAddressSchema` from `@/lib/schemas`
(not under `src/`).  The spec calls these values on-chain addresses; the
standard form is `0x` followed by 40 hexadecimal digits. -/
def isHexDigit (c : Char) : Bool :=
  ('0' ≤ c && c ≤ '9') || ('a' ≤ c && c ≤ 'f') || ('A' ≤ c && c ≤ 'F')

/-- Modelled from the spec: validity of one on-chain address string — `0x`
followed by exactly 40 hexadecimal digits. -/
def isEthereumAddress (s : String) : Bool :=
  match s.data with
  | '0' :: 'x' :: rest => rest.length == 40 && rest.all isHexDigit
  | _ => false

/-- Modelled from the spec: `USDC_ADDRESS` from `@/lib/utils` (not under
`src/`), the token address used as the default `tokens` entry. -/
def USDC_ADDRESS : String := "0x833589fcd6edb6e08f4c7c32d4f71b54bda02913"

/-- A facilitator as exported by `@/lib/facilitators`: a display name and
the addresses of its on-chain cluster (spec: "a known on-chain address
cluster acting as a transaction relayer/sender"). -/
structure Facilitator where
  name : String
  addresses : List String
deriving DecidableEq, Repr

/-- Modelled from the spec: the `facilitators` constant from
`@/lib/facilitators` (not under `src/`): the known facilitator clusters,
each with a display name and its addresses; modelled with two
representative clusters. -/
def facilitatorsList : List Facilitator :=
  [⟨"Coinbase", ["0x6a0a8fab9d1a1ed2ae0d7cf1e0dcbd37a8a0a8ab",
      "0x20d8a85e3fa273ea0bad7a54e0b0a44f4b6b2cc1"]⟩,
   ⟨"thirdweb", ["0x044f4b6b2cc16a0a8fab9d1a1ed2ae0d7cf1e0dc"]⟩]

/-- All facilitator cluster addresses,
`facilitators.flatMap(f => f.addresses)`. -/
def allFacilitatorAddresses : List String :=
  facilitatorsList.flatMap (fun f => f.addresses)

/-- Modelled from the spec: the default value of the `facilitators` field of
`baseQuerySchema` (not under `src/`): the known facilitator addresses. -/
def defaultFacilitators : List String := allFacilitatorAddresses

/-- Modelled from the spec: the default value of the `tokens` field of
`baseQuerySchema` (not under `src/`). -/
def defaultTokens : List String := [USDC_ADDRESS]

/-- Modelled from the spec: date-fns `subMonths(new Date(), 1)` (an external
library): one month before `now`, modelled as 30 days of milliseconds; no
claim depends on the exact calendar value. -/
def subMonthMs (now : Int) : Int := now - 30 * 86400000

/-- Raw (pre-validation) input of `bucketedStatisticsInputSchema`
(`bucketed.ts` lines 9‑20): `baseQuerySchema` extended with optional
`addresses`, `startDate`, `endDate`, `numBuckets`.  `z.number()` and
`z.date()` accept every number / date, so those fields carry no validity
constraint; address lists are validated entrywise. -/
structure RawBucketedInput where
  facilitators : Option (List String)
  tokens : Option (List String)
  addresses : Option (List String)
  startDate : Option Int
  endDate : Option Int
  numBuckets : Option Int
deriving DecidableEq, Repr

/-- Parsed output of `bucketedStatisticsInputSchema`, defaults applied. -/
structure BucketedInput where
  facilitators : List String
  tokens : List String
  addresses : Option (List String)
  startDate : Int
  endDate : Int
  numBuckets : Int
deriving DecidableEq, Repr

/-- An optional address list is schema-valid when every present entry is a
valid address (an absent list defers to the schema default). -/
def optAddressesValid (o : Option (List String)) : Bool :=
  (o.getD []).all isEthereumAddress

/-- Acceptance of `bucketedStatisticsInputSchema`: only the address lists
are constrained; `startDate`, `endDate` and `numBuckets` accept any value. -/
def bucketedAccepts (raw : RawBucketedInput) : Bool :=
  optAddressesValid raw.facilitators && optAddressesValid raw.tokens &&
    optAddressesValid raw.addresses

/-- `bucketedStatisticsInputSchema.safeParse` (`bucketed.ts` line 25):
success applies the defaults (`startDate`: one month before now, `endDate`:
now, `numBuckets`: 48, `facilitators`/`tokens`: the base defaults). -/
def bucketedSafeParse (now : Int) (raw : RawBucketedInput) :
    Except String BucketedInput :=
  if bucketedAccepts raw then
    .ok ⟨raw.facilitators.getD defaultFacilitators, raw.tokens.getD defaultTokens,
      raw.addresses, raw.startDate.getD (subMonthMs now), raw.endDate.getD now,
      raw.numBuckets.getD 48⟩
  else .error "invalid ethereum address"

/-- `bucketed.ts` lines 22‑123, `getBucketedStatisticsUncached`: validate
(`safeParse`, throwing `'Invalid input: ' + message` on failure, lines
25‑28), issue the query (external; its decoded result is the
`queryResult` argument), then null-check and zero-fill (lines 78‑122). -/
def getBucketedStatisticsUncached (now : Int) (raw : RawBucketedInput)
    (queryResult : Option (List StatsRow)) : Except String (List StatsRow) :=
  match bucketedSafeParse now raw with
  | .error msg => .error ("Invalid input: " ++ msg)
  | .ok p => .ok (getBucketedStatisticsProcess p.startDate p.endDate p.numBuckets queryResult)

/-- Raw input of `overallStatisticsInputSchema` (`overall.ts` lines 9‑13):
`baseQuerySchema` extended with optional `addresses`, `startDate`,
`endDate` (no defaults on the dates). -/
structure RawOverallInput where
  facilitators : Option (List String)
  tokens : Option (List String)
  addresses : Option (List String)
  startDate : Option Int
  endDate : Option Int
deriving DecidableEq, Repr

/-- Parsed output of `overallStatisticsInputSchema`. -/
structure OverallInput where
  facilitators : List String
  tokens : List String
  addresses : Option (List String)
  startDate : Option Int
  endDate : Option Int
deriving DecidableEq, Repr

/-- Acceptance of `overallStatisticsInputSchema`. -/
def overallAccepts (raw : RawOverallInput) : Bool :=
  optAddressesValid raw.facilitators && optAddressesValid raw.tokens &&
    optAddressesValid raw.addresses

/-- `overallStatisticsInputSchema.safeParse` (`overall.ts` line 18). -/
def overallSafeParse (raw : RawOverallInput) : Except String OverallInput :=
  if overallAccepts raw then
    .ok ⟨raw.facilitators.getD defaultFacilitators, raw.tokens.getD defaultTokens,
      raw.addresses, raw.startDate, raw.endDate⟩
  else .error "invalid ethereum address"

/-- `overall.ts` lines 15‑75, `getOverallStatisticsUncached`: validate
(lines 18‑21, throwing `'Invalid input: ' + message`), issue the query,
then the null/empty fallback (lines 57‑74). -/
def getOverallStatisticsUncached (now : Int) (raw : RawOverallInput)
    (queryResult : Option (List OverallRow)) : Except String OverallRow :=
  match overallSafeParse raw with
  | .error msg => .error ("Invalid input: " ++ msg)
  | .ok _ => .ok (overallProcess now queryResult)

/-! ## The top-sellers query (`src/unnamed/part_000`) -/

/-- A row of the top-sellers query output schema (part_000 lines 41‑50). -/
structure SellerRow where
  recipient : String
  facilitators : List String
  tx_count : Int
  total_amount : Int
  latest_block_timestamp : Int
  unique_buyers : Int
deriving DecidableEq, Repr

/-- A sorting choice (`sortingSchema`, from `../lib`, not under `src/`):
a sort column id and a descending flag. -/
structure Sorting where
  id : String
  desc : Bool
deriving DecidableEq, Repr

/-- `sellerSortIds` (part_000 lines 14‑19). -/
def sellerSortIds : List String :=
  ["tx_count", "total_amount", "latest_block_timestamp", "unique_buyers"]

/-- Raw input of `listTopSellersInputSchema` (part_000 lines 23‑28):
`baseQuerySchema` extended with a required `sorting` and optional
`addresses`, `startDate`, `endDate`. -/
structure RawTopSellersInput where
  facilitators : Option (List String)
  tokens : Option (List String)
  sorting : Option Sorting
  addresses : Option (List String)
  startDate : Option Int
  endDate : Option Int
deriving DecidableEq, Repr

/-- Parsed output of `listTopSellersInputSchema`. -/
structure TopSellersInput where
  facilitators : List String
  tokens : List String
  sorting : Sorting
  addresses : Option (List String)
  startDate : Option Int
  endDate : Option Int
deriving DecidableEq, Repr

/-- Acceptance of `listTopSellersInputSchema`: the address lists are
validated entrywise, and `sorting` must be present with an id drawn from
`sellerSortIds` (a zod enum). -/
def topSellersAccepts (raw : RawTopSellersInput) : Bool :=
  optAddressesValid raw.facilitators && optAddressesValid raw.tokens &&
    optAddressesValid raw.addresses &&
    (match raw.sorting with
     | none => false
     | some s => sellerSortIds.contains s.id)

/-- `listTopSellersInputSchema.safeParse` (part_000 line 34). -/
def topSellersSafeParse (raw : RawTopSellersInput) :
    Except String TopSellersInput :=
  match raw.sorting with
  | none => .error "sorting is required"
  | some s =>
    if topSellersAccepts raw then
      .ok ⟨raw.facilitators.getD defaultFacilitators, raw.tokens.getD defaultTokens,
        s, raw.addresses, raw.startDate, raw.endDate⟩
    else .error "invalid input"

/-- Modelled from the spec: `toPaginatedResponse` from `@/lib/pagination`
(not under `src/`); the spec describes the postprocessing as "pagination
slicing": keep the first `limit` items and report whether a further page
exists. -/
structure PaginatedResponse (α : Type) where
  items : List α
  hasNextPage : Bool
deriving DecidableEq, Repr

/-- Modelled from the spec: the slicing performed by `toPaginatedResponse`
on `{ items, limit }`. -/
def toPaginatedResponse {α : Type} (items : List α) (limit : Int) :
    PaginatedResponse α :=
  ⟨items.take limit.toNat, decide (limit.toNat < items.length)⟩

/-- part_000 lines 30‑88, `listTopSellersUncached`: validate (lines 34‑37,
throwing `'Invalid input: ' + message`), issue the query (its decoded
result is `queryResult`; the pagination `limit` comes from the separate
`pagination` argument), then the null check and `toPaginatedResponse`. -/
def listTopSellersUncached (raw : RawTopSellersInput) (limit : Int)
    (queryResult : Option (List SellerRow)) :
    Except String (PaginatedResponse SellerRow) :=
  match topSellersSafeParse raw with
  | .error msg => .error ("Invalid input: " ++ msg)
  | .ok _ =>
    match queryResult with
    | none => .ok (toPaginatedResponse [] limit)
    | some items => .ok (toPaginatedResponse items limit)

/-! ## The top-facilitators query (`bucketed.ts` lines 133‑244) -/

/-- A row of the top-facilitators query output schema (`bucketed.ts` lines
211‑223).  Its `facilitator_name` field is decoded by
`z.string().transform(v => v as FacilitatorName)` — an unchecked cast, so
any string. -/
structure FacilitatorRow where
  unique_sellers : Int
  unique_buyers : Int
  tx_count : Int
  total_amount : Int
  latest_block_timestamp : Int
  facilitator_name : String
deriving DecidableEq, Repr

/-- Modelled from the spec: `facilitatorNameMap` from `@/lib/facilitators`
(not under `src/`): maps each facilitator's display name — and the name
`'Unknown'` that the SQL `CASE` fallback produces — to its named entity. -/
def facilitatorNameMap : List (String × Facilitator) :=
  facilitatorsList.map (fun f => (f.name, f)) ++ [("Unknown", ⟨"Unknown", []⟩)]

/-- `facilitatorNameMap.get(name)` as an `Option`. -/
def facilitatorNameMapGet (name : String) : Option Facilitator :=
  (facilitatorNameMap.find? (fun p => p.1 == name)).map Prod.snd

/-- `bucketed.ts` lines 230‑233: `{ ...r, facilitator:
facilitatorNameMap.get(r.facilitator_name)! }`.  The non-null-asserted
lookup is embedded as the `Option`-valued lookup, so that its definedness
is a statement rather than an assumption. -/
def enrichFacilitatorRow (r : FacilitatorRow) : FacilitatorRow × Option Facilitator :=
  (r, facilitatorNameMapGet r.facilitator_name)

/-- `Array.prototype.slice(0, end)`: a negative `end` counts from the end of
the array (clamped at 0); the result is the prefix up to that index. -/
def jsSlice0 {α : Type} (xs : List α) (stop : Int) : List α :=
  if stop < 0 then xs.take ((xs.length : Int) + stop).toNat
  else xs.take stop.toNat

/-- `bucketed.ts` lines 225‑234: null check, then
`result.map(r => ({ ...r, facilitator: … })).slice(0, limit)`. -/
def listTopFacilitatorsProcess (limit : Int)
    (result : Option (List FacilitatorRow)) :
    List (FacilitatorRow × Option Facilitator) :=
  match result with
  | none => []
  | some rows => jsSlice0 (rows.map enrichFacilitatorRow) limit

/-- `listTopFacilitatorsSortIds` (`bucketed.ts` lines 142‑148). -/
def listTopFacilitatorsSortIds : List String :=
  ["tx_count", "total_amount", "latest_block_timestamp", "unique_buyers",
    "unique_sellers"]

/-- Parsed output of `listTopFacilitatorsInputSchema` (`bucketed.ts` lines
152‑161): optional dates, `limit` defaulting to 100, `sorting` defaulting
to `tx_count` descending, `tokens` defaulting to `[USDC_ADDRESS]`. -/
structure TopFacilitatorsInput where
  startDate : Option Int
  endDate : Option Int
  limit : Int
  sorting : Sorting
  tokens : List String
deriving DecidableEq, Repr

/-! ## The bucketed-facilitators query (`bucketed.ts` lines 245‑382) -/

/-- A row of the bucketed-facilitators output schema (`bucketed.ts` lines
273‑280): a bucket start (embedded as milliseconds), the four statistics
and a facilitator name. -/
structure FacStatsRow where
  bucket_start : Int
  total_transactions : Int
  total_amount : Int
  unique_buyers : Int
  unique_sellers : Int
  facilitator_name : String
deriving DecidableEq, Repr

/-- The `rest` of one row after `const { bucket_start, facilitator_name,
...rest } = item` (`bucketed.ts` line 346). -/
structure FacStats where
  total_transactions : Int
  total_amount : Int
  unique_buyers : Int
  unique_sellers : Int
deriving DecidableEq, Repr

/-- The four statistics of a row. -/
def FacStatsRow.stats (r : FacStatsRow) : FacStats :=
  ⟨r.total_transactions, r.total_amount, r.unique_buyers, r.unique_sellers⟩

/-- One collapsed bucket (`bucketed.ts` lines 358‑369): a bucket start and a
JavaScript object keyed by facilitator name, embedded as an insertion-order
association list. -/
structure CollapsedBucket where
  bucket_start : Int
  facilitators : List (String × FacStats)
deriving DecidableEq, Repr

/-- JavaScript `obj[key] = value` on a string-keyed object: an existing key
is overwritten in place, a new key is appended. -/
def recordSet (m : List (String × FacStats)) (k : String) (v : FacStats) :
    List (String × FacStats) :=
  if m.any (fun p => p.1 == k) then
    m.map (fun p => if p.1 == k then (k, v) else p)
  else m ++ [(k, v)]

/-- JavaScript object property read: the value at the first (and, for an
object, only) occurrence of the key. -/
def recordGet (m : List (String × FacStats)) (k : String) : Option FacStats :=
  (m.find? (fun p => p.1 == k)).map Prod.snd

/-- Mutate the first bucket of `acc` whose `bucket_start` equals `key`
(`acc.find(…)` at `bucketed.ts` lines 347‑349 returns a reference into the
accumulator; line 355 assigns through it). -/
def updateFirst (acc : List CollapsedBucket) (key : Int) (name : String)
    (v : FacStats) : List CollapsedBucket :=
  match acc with
  | [] => []
  | b :: bs =>
    if b.bucket_start == key then ⟨b.bucket_start, recordSet b.facilitators name v⟩ :: bs
    else b :: updateFirst bs key name v

/-- One step of the `reduce` at `bucketed.ts` lines 344‑357: find the bucket
with this row's `bucket_start` (pushing a fresh `{ bucket_start,
facilitators: {} }` if absent), then set `bucket.facilitators[facilitator_name]`
to the row's statistics. -/
def collapseStep (acc : List CollapsedBucket) (item : FacStatsRow) :
    List CollapsedBucket :=
  if acc.any (fun b => b.bucket_start == item.bucket_start) then
    updateFirst acc item.bucket_start item.facilitator_name item.stats
  else
    updateFirst (acc ++ [⟨item.bucket_start, []⟩]) item.bucket_start
      item.facilitator_name item.stats

/-- The collapse of the whole result, `result.reduce(…, [])`
(`bucketed.ts` lines 344‑370). -/
def collapse (result : List FacStatsRow) : List CollapsedBucket :=
  result.foldl collapseStep []

/-- The distinct values of a list in order of first appearance (the
reference point for "each distinct `bucket_start` exactly once, in order of
first appearance"). -/
def firstOcc (ks : List Int) : List Int :=
  ks.foldl (fun acc k => if k ∈ acc then acc else acc ++ [k]) []

/-! ## SQL string assembly

The queries are template literals: literal SQL text with interpolated,
schema-validated parameters.  They are embedded as explicit (right-nested)
string concatenations; `${n}` on a number is `intStr n`, `.join(sep)` is
`joinSep sep`. -/

/-- JavaScript `Array.prototype.join(sep)`. -/
def joinSep (sep : String) : List String → String
  | [] => ""
  | [x] => x
  | x :: y :: xs => x ++ sep ++ joinSep sep (y :: xs)

/-- `xs.map(x => `'${x}'`).join(', ')`, the quoted `IN (…)` list used for
every interpolated address list. -/
def quotedList (xs : List String) : String :=
  joinSep ", " (xs.map (fun x => "'" ++ x ++ "'"))

/-- The decimal digits of a natural number, most significant first. -/
def natDigits (n : Nat) : List Char :=
  if _h : n < 10 then [Char.ofNat (48 + n)]
  else natDigits (n / 10) ++ [Char.ofNat (48 + n % 10)]
decreasing_by exact Nat.div_lt_self (by omega) (by omega)

/-- The rendering of `${n}` for an integral JavaScript number. -/
def intStr (n : Int) : String :=
  if n < 0 then "-" ++ String.mk (natDigits (-n).toNat)
  else String.mk (natDigits n.toNat)

/-- Modelled from the spec: `formatDateForSql` from `../lib` (not under
`src/`): renders a date as the SQL date literal that the queries place
between single quotes.  The calendar rendering is external to the snapshot;
modelled as the decimal Unix timestamp in seconds which, like any date
rendering, consists of plain digit/sign characters. -/
def formatDateForSql (ms : Int) : String := intStr (Int.fdiv ms 1000)

/-- `${startDate ? `AND block_timestamp >= '${formatDateForSql(startDate)}'` : ''}`. -/
def startDateClause (startDate : Option Int) : String :=
  match startDate with
  | some d => "AND block_timestamp >= '" ++ formatDateForSql d ++ "'"
  | none => ""

/-- `${endDate ? `AND block_timestamp <= '${formatDateForSql(endDate)}'` : ''}`. -/
def endDateClause (endDate : Option Int) : String :=
  match endDate with
  | some d => "AND block_timestamp <= '" ++ formatDateForSql d ++ "'"
  | none => ""

/-- `${addresses && addresses.length > 0 ? `AND parameters['to']::String IN (…)` : ''}`
(`overall.ts` lines 42‑48, `bucketed.ts` lines 61‑67). -/
def addressesClause (addresses : Option (List String)) : String :=
  match addresses with
  | some (a :: rest) =>
    "AND parameters['to']::String IN (" ++ quotedList (a :: rest) ++ ")"
  | _ => ""

/-- `${addresses && addresses.length > 0 ? `AND recipient IN (…)` : ''}`
(part_000 lines 63‑67). -/
def recipientClause (addresses : Option (List String)) : String :=
  match addresses with
  | some (a :: rest) => "AND recipient IN (" ++ quotedList (a :: rest) ++ ")"
  | _ => ""

/-- One `WHEN … THEN …` branch of the facilitator-name `CASE`
(`bucketed.ts` lines 176‑183 and 294‑302). -/
def caseBranch (f : Facilitator) : String :=
  "WHEN transaction_from IN (" ++ quotedList f.addresses ++ ") THEN '" ++ (f.name ++ "'")

/-- `facilitators.map(caseBranch).join('\n        ')`. -/
def caseBranches : String :=
  joinSep "\n        " (facilitatorsList.map caseBranch)

/-- `ORDER BY ${sorting.id} ${sorting.desc ? 'DESC' : 'ASC'}`. -/
def sortDir (desc : Bool) : String := if desc then "DESC" else "ASC"

/-- The SQL of `getOverallStatisticsUncached` (`overall.ts` lines 32‑53). -/
def overallSql (p : OverallInput) : String :=
  "SELECT\n    COUNT(DISTINCT transaction_hash) AS total_transactions,\n    SUM(parameters['value']::UInt256) AS total_amount,\n    COUNT(DISTINCT parameters['from']::String) AS unique_buyers,\n    COUNT(DISTINCT parameters['to']::String) AS unique_sellers,\n    max(block_timestamp) AS latest_block_timestamp\nFROM base.events\nWHERE event_signature = 'Transfer(address,address,uint256)'\n    AND address IN (" ++
    (quotedList p.tokens ++
    (")\n    AND transaction_from IN (" ++
    (quotedList p.facilitators ++
    (")\n    " ++
    (addressesClause p.addresses ++
    ("\n    " ++
    (startDateClause p.startDate ++
    ("\n    " ++
    (endDateClause p.endDate ++
    "\n  ")))))))))

/-- The SQL of `getBucketedStatisticsUncached` (`bucketed.ts` lines 50‑74);
after parsing, `startDate` and `endDate` always hold values, so the date
ternaries take their truthy branch. -/
def bucketedSql (p : BucketedInput) : String :=
  "SELECT\n    toDateTime(toUInt32(toUnixTimestamp(block_timestamp) / " ++
    (intStr (bucketSizeSeconds p.startDate p.endDate p.numBuckets) ++
    (") * " ++
    (intStr (bucketSizeSeconds p.startDate p.endDate p.numBuckets) ++
    (") AS bucket_start,\n    COUNT(DISTINCT transaction_hash) AS total_transactions,\n    SUM(parameters['value']::UInt256) AS total_amount,\n    COUNT(DISTINCT parameters['from']::String) AS unique_buyers,\n    COUNT(DISTINCT parameters['to']::String) AS unique_sellers\nFROM base.events\nWHERE event_signature = 'Transfer(address,address,uint256)'\n    AND address IN (" ++
    (quotedList p.tokens ++
    (")\n    AND transaction_from IN (" ++
    (quotedList p.facilitators ++
    (")\n    AND parameters['value']::UInt256 < 1000000000\n    " ++
    (addressesClause p.addresses ++
    ("\n    " ++
    (startDateClause (some p.startDate) ++
    ("\n    " ++
    (endDateClause (some p.endDate) ++
    "\nGROUP BY bucket_start\nORDER BY bucket_start ASC;\n  ")))))))))))))

/-- The SQL of `listTopSellersUncached` (part_000 lines 52‑75). -/
def topSellersSql (p : TopSellersInput) (limit : Int) : String :=
  "SELECT \n    parameters['to']::String AS recipient, \n    COUNT(DISTINCT transaction_hash) AS tx_count, \n    SUM(parameters['value']::UInt256) AS total_amount,\n    max(block_timestamp) AS latest_block_timestamp,\n    COUNT(DISTINCT parameters['from']::String) AS unique_buyers,\n    groupArray(DISTINCT transaction_from) AS facilitators\nFROM base.events \nWHERE event_signature = 'Transfer(address,address,uint256)'\n    AND address IN (" ++
    (quotedList p.tokens ++
    (")\n    AND transaction_from IN (" ++
    (quotedList p.facilitators ++
    (")\n    " ++
    (recipientClause p.addresses ++
    ("\n    " ++
    (startDateClause p.startDate ++
    ("\n    " ++
    (endDateClause p.endDate ++
    ("\nGROUP BY recipient \nORDER BY " ++
    (p.sorting.id ++
    (" " ++
    (sortDir p.sorting.desc ++
    ("\nLIMIT " ++
    (intStr (limit + 1) ++
    ";\n  ")))))))))))))))

/-- The SQL of `listTopFacilitatorsUncached` (`bucketed.ts` lines 169‑210). -/
def topFacilitatorsSql (p : TopFacilitatorsInput) : String :=
  "SELECT \n    COUNT(DISTINCT parameters['to']::String) AS unique_sellers,\n    COUNT(DISTINCT parameters['from']::String) AS unique_buyers,\n    COUNT(DISTINCT transaction_hash) AS tx_count, \n    SUM(parameters['value']::UInt256) AS total_amount,\n    max(block_timestamp) AS latest_block_timestamp,\n    CASE\n    " ++
    (caseBranches ++
    ("\n    ELSE 'Unknown'\n    END AS facilitator_name\nFROM base.events \nWHERE event_signature = 'Transfer(address,address,uint256)'\n    AND address IN (" ++
    (quotedList p.tokens ++
    (")\n    AND transaction_from IN (" ++
    (quotedList allFacilitatorAddresses ++
    (")\n    " ++
    (startDateClause p.startDate ++
    ("\n    " ++
    (endDateClause p.endDate ++
    ("\nGROUP BY \n    CASE\n    " ++
    (caseBranches ++
    ("\n    ELSE 'Unknown'\n    END\nORDER BY " ++
    (p.sorting.id ++
    (" " ++
    (sortDir p.sorting.desc ++
    (" \nLIMIT " ++
    intStr (p.limit + 1)))))))))))))))))

/-- The SQL of `getBucketedFacilitatorsStatisticsUncached` (`bucketed.ts`
lines 288‑332); its schema has no `addresses` field, and the dates are
always present after parsing. -/
def bucketedFacilitatorsSql (startMs endMs numBuckets : Int)
    (tokens : List String) : String :=
  "SELECT\n    toDateTime(toUInt32(toUnixTimestamp(block_timestamp) / " ++
    (intStr (bucketSizeSeconds startMs endMs numBuckets) ++
    (") * " ++
    (intStr (bucketSizeSeconds startMs endMs numBuckets) ++
    (") AS bucket_start,\n    COUNT(DISTINCT transaction_hash) AS total_transactions,\n    SUM(parameters['value']::UInt256) AS total_amount,\n    COUNT(DISTINCT parameters['from']::String) AS unique_buyers,\n    COUNT(DISTINCT parameters['to']::String) AS unique_sellers,\n    CASE\n    " ++
    (caseBranches ++
    ("\n    ELSE 'Unknown'\n    END AS facilitator_name\nFROM base.events\nWHERE \n    event_signature = 'Transfer(address,address,uint256)'\n    AND parameters['value']::UInt256 < 1000000000\n    AND address IN (" ++
    (quotedList tokens ++
    (")\n    AND transaction_from IN (" ++
    (quotedList allFacilitatorAddresses ++
    (")\n    " ++
    (startDateClause (some startMs) ++
    ("\n    " ++
    (endDateClause (some endMs) ++
    "\nGROUP BY \n  CASE\n    " ++
    (caseBranches ++
    "\n    ELSE 'Unknown'\n  END, \n  bucket_start\nORDER BY bucket_start ASC;\n  "))))))))))))))

/-! ## SQL string properties

The formal reading of "a single SELECT statement reading from `base.events`,
containing no data-modifying statement": the text starts with `SELECT`,
contains `FROM base.events`, and holds exactly one SQL statement — at most
one `;`, with nothing but whitespace after it — so no second statement (an
`INSERT`, `UPDATE`, `DELETE` or DDL) can be present. -/

/-- No character of `s` is a `;`. -/
def semiFree (s : String) : Prop := ∀ c ∈ s.data, c ≠ ';'

instance (s : String) : Decidable (semiFree s) :=
  inferInstanceAs (Decidable (∀ c ∈ s.data, c ≠ ';'))

/-- `s` holds a single SQL statement: any `;` is final, followed only by
whitespace. -/
def singleStatement (s : String) : Prop :=
  ∃ a b, s.data = a ++ b ∧ (∀ c ∈ a, c ≠ ';') ∧
    (b = [] ∨ ∃ t, b = ';' :: t ∧ ∀ c ∈ t, c = ' ' ∨ c = '\n')

/-- `s` starts with `SELECT`. -/
def startsWithSelect (s : String) : Prop :=
  ("SELECT").data <+: s.data

instance (s : String) : Decidable (startsWithSelect s) :=
  inferInstanceAs (Decidable (_ <+: _))

/-- `s` contains `FROM base.events`. -/
def readsFromBaseEvents (s : String) : Prop :=
  ("FROM base.events").data <:+: s.data

instance (s : String) : Decidable (readsFromBaseEvents s) :=
  inferInstanceAs (Decidable (_ <:+: _))

/-! ## Basic lemmas about the bucketed series -/

theorem dataMapGet_bucket_start {result : List StatsRow} {k : Int} {r : StatsRow}
    (h : dataMapGet result k = some r) : r.bucket_start = k := by
  have hp := List.find?_some h
  simpa using hp

theorem dataMapGet_eq_none {result : List StatsRow} {k : Int} :
    dataMapGet result k = none ↔ ∀ r ∈ result, r.bucket_start ≠ k := by
  unfold dataMapGet
  rw [List.find?_eq_none]
  constructor
  · intro h r hr
    have := h r (List.mem_reverse.mpr hr)
    simpa using this
  · intro h r hr
    have := h r (List.mem_reverse.mp hr)
    simpa using this

theorem bucketEntry_bucket_start (result : List StatsRow) (k : Int) :
    (bucketEntry result k).bucket_start = k := by
  unfold bucketEntry
  cases h : dataMapGet result k with
  | none => rfl
  | some r => exact dataMapGet_bucket_start h

theorem bucketEntry_of_no_match (result : List StatsRow) (k : Int)
    (h : ∀ r ∈ result, r.bucket_start ≠ k) :
    bucketEntry result k = zeroRow k := by
  unfold bucketEntry
  rw [dataMapGet_eq_none.mpr h]

theorem getBucketedSeries_length (startMs endMs numBuckets : Int)
    (result : List StatsRow) :
    (getBucketedSeries startMs endMs numBuckets result).length = numBuckets.toNat := by
  simp [getBucketedSeries]

theorem getBucketedSeries_getElem (startMs endMs numBuckets : Int)
    (result : List StatsRow) (i : Nat)
    (hi : i < (getBucketedSeries startMs endMs numBuckets result).length) :
    (getBucketedSeries startMs endMs numBuckets result).get ⟨i, hi⟩ =
      bucketEntry result (bucketKeyAt startMs endMs numBuckets i) := by
  simp [getBucketedSeries]

/-- C9: for every input accepted by the bucketed-statistics schema (with any
`numBuckets`, in particular `numBuckets ≥ 1`), the bucket width
`bucketSizeSeconds` computed at `bucketed.ts` lines 40‑42 — and identically at
lines 283‑285 of `getBucketedFacilitatorsStatisticsUncached` — is at least 1,
even when `endDate` precedes or equals `startDate` (the `Math.max(1, ·)`
guard), so the divisor interpolated into the SQL bucketing expression is
never zero. -/
theorem bucketSizeSeconds_pos (startMs endMs numBuckets : Int) :
    1 ≤ bucketSizeSeconds startMs endMs numBuckets ∧
      bucketSizeSeconds startMs endMs numBuckets ≠ 0 := by
  constructor
  · exact le_max_left _ _
  · intro h
    have h1 : (1 : Int) ≤ bucketSizeSeconds startMs endMs numBuckets := le_max_left _ _
    omega

/-- C1: for `numBuckets ≥ 1`, whenever the SQL query returns a (possibly
empty) row list, the series has exactly `numBuckets` entries; entry `i` has
`bucket_start` equal to
`(firstBucketStartTimestamp + i * bucketSizeSeconds)` seconds (stored as
milliseconds, hence the `* 1000`), where `firstBucketStartTimestamp` is
`⌊⌊startMs/1000⌋ / bucketSizeSeconds⌋ * bucketSizeSeconds`; consecutive
`bucket_start` values differ by exactly `bucketSizeSeconds`; and every entry
whose `bucket_start` matches no queried row is all-zero. -/
theorem bucketed_series_shape (startMs endMs numBuckets : Int)
    (hnb : 1 ≤ numBuckets) (result : List StatsRow) :
    ((getBucketedSeries startMs endMs numBuckets result).length : Int) = numBuckets ∧
    (∀ (i : Nat) (hi : i < (getBucketedSeries startMs endMs numBuckets result).length),
      ((getBucketedSeries startMs endMs numBuckets result).get ⟨i, hi⟩).bucket_start =
        (firstBucketStartTimestamp startMs (bucketSizeSeconds startMs endMs numBuckets) +
          (i : Int) * bucketSizeSeconds startMs endMs numBuckets) * 1000) ∧
    (∀ (i : Nat) (hi : i < (getBucketedSeries startMs endMs numBuckets result).length)
        (hi1 : i + 1 < (getBucketedSeries startMs endMs numBuckets result).length),
      ((getBucketedSeries startMs endMs numBuckets result).get ⟨i + 1, hi1⟩).bucket_start -
        ((getBucketedSeries startMs endMs numBuckets result).get ⟨i, hi⟩).bucket_start =
        bucketSizeSeconds startMs endMs numBuckets * 1000) ∧
    (∀ (i : Nat) (hi : i < (getBucketedSeries startMs endMs numBuckets result).length),
      (∀ r ∈ result, r.bucket_start ≠
          ((getBucketedSeries startMs endMs numBuckets result).get ⟨i, hi⟩).bucket_start) →
      (getBucketedSeries startMs endMs numBuckets result).get ⟨i, hi⟩ =
        zeroRow (bucketKeyAt startMs endMs numBuckets i)) := by
  refine ⟨?_, ?_, ?_, ?_⟩
  · rw [getBucketedSeries_length]
    omega
  · intro i hi
    rw [getBucketedSeries_getElem, bucketEntry_bucket_start]
    rfl
  · intro i hi hi1
    rw [getBucketedSeries_getElem, getBucketedSeries_getElem,
      bucketEntry_bucket_start, bucketEntry_bucket_start]
    unfold bucketKeyAt
    push_cast
    ring
  · intro i hi hmatch
    rw [getBucketedSeries_getElem] at hmatch ⊢
    rw [bucketEntry_bucket_start] at hmatch
    exact bucketEntry_of_no_match _ _ hmatch

/-- Witness for `bucketed_series_shape` at `startMs = 0`, `endMs = 10000`,
`numBuckets = 3`, one queried row in bucket 3000 ms. -/
theorem bucketed_series_shape_witness :
    (1 : Int) ≤ 3 ∧
    (((getBucketedSeries 0 10000 3 [⟨3000, 5, 6, 7, 8⟩]).length : Int) = 3 ∧
    (∀ (i : Nat) (hi : i < (getBucketedSeries 0 10000 3 [⟨3000, 5, 6, 7, 8⟩]).length),
      ((getBucketedSeries 0 10000 3 [⟨3000, 5, 6, 7, 8⟩]).get ⟨i, hi⟩).bucket_start =
        (firstBucketStartTimestamp 0 (bucketSizeSeconds 0 10000 3) +
          (i : Int) * bucketSizeSeconds 0 10000 3) * 1000) ∧
    (∀ (i : Nat) (hi : i < (getBucketedSeries 0 10000 3 [⟨3000, 5, 6, 7, 8⟩]).length)
        (hi1 : i + 1 < (getBucketedSeries 0 10000 3 [⟨3000, 5, 6, 7, 8⟩]).length),
      ((getBucketedSeries 0 10000 3 [⟨3000, 5, 6, 7, 8⟩]).get ⟨i + 1, hi1⟩).bucket_start -
        ((getBucketedSeries 0 10000 3 [⟨3000, 5, 6, 7, 8⟩]).get ⟨i, hi⟩).bucket_start =
        bucketSizeSeconds 0 10000 3 * 1000) ∧
    (∀ (i : Nat) (hi : i < (getBucketedSeries 0 10000 3 [⟨3000, 5, 6, 7, 8⟩]).length),
      (∀ r ∈ [(⟨3000, 5, 6, 7, 8⟩ : StatsRow)], r.bucket_start ≠
          ((getBucketedSeries 0 10000 3 [⟨3000, 5, 6, 7, 8⟩]).get ⟨i, hi⟩).bucket_start) →
      (getBucketedSeries 0 10000 3 [⟨3000, 5, 6, 7, 8⟩]).get ⟨i, hi⟩ =
        zeroRow (bucketKeyAt 0 10000 3 i))) :=
  ⟨by decide, bucketed_series_shape 0 10000 3 (by decide) [⟨3000, 5, 6, 7, 8⟩]⟩

theorem find?_append_of_forall_not {α : Type} (p : α → Bool) (xs ys : List α)
    (h : ∀ x ∈ xs, ¬ p x) : (xs ++ ys).find? p = ys.find? p := by
  induction xs with
  | nil => rfl
  | cons a as ih =>
    have hpa : p a = false := by
      have := h a (by simp)
      simpa using this
    rw [List.cons_append, List.find?]
    rw [hpa]
    exact ih (fun x hx => h x (by simp [hx]))

/-- If `r` is the last row of the result with its `bucket_start`, the
JavaScript `Map` maps that key to `r`. -/
theorem dataMapGet_last (pre post : List StatsRow) (r : StatsRow)
    (hlast : ∀ r' ∈ post, r'.bucket_start ≠ r.bucket_start) :
    dataMapGet (pre ++ r :: post) r.bucket_start = some r := by
  unfold dataMapGet
  rw [List.reverse_append, List.reverse_cons, List.append_assoc]
  rw [find?_append_of_forall_not]
  · simp [List.find?]
  · intro x hx
    have hx' : x ∈ post := List.mem_reverse.mp hx
    simpa using hlast x hx'

/-- C2 is false as stated: a queried row whose `bucket_start` is not among
the `numBuckets` generated bucket keys is silently discarded.  Concretely,
with `startDate = 0 ms`, `endDate = 10000 ms` and `numBuckets = 3`, the
bucket size is 3 s and the generated keys are 0, 3000, 6000 ms; a transfer at
`block_timestamp` 9 s falls in the SQL bucket `⌊9/3⌋·3 = 9` s, and that row
(`bucket_start = 9000 ms`) appears nowhere in the returned series. -/
theorem bucketed_series_drops_row :
    ((⟨9000, 5, 6, 7, 8⟩ : StatsRow) ∉ getBucketedSeries 0 10000 3 [⟨9000, 5, 6, 7, 8⟩]) ∧
    (∀ e ∈ getBucketedSeries 0 10000 3 [⟨9000, 5, 6, 7, 8⟩], e.bucket_start ≠ 9000) := by
  decide

/-- C2 (amended): every row in the SQL query result whose `bucket_start`
equals one of the generated bucket keys, and after which no later row of the
result has the same `bucket_start`, appears unchanged in the series at the
entry whose `bucket_start` equals that row's `bucket_start`.  (The SQL query
groups by `bucket_start`, so its rows have pairwise distinct `bucket_start`
and the no-later-duplicate condition is vacuous for real query results; rows
falling outside the generated keys are dropped, per
`bucketed_series_drops_row`.) -/
theorem bucketed_series_keeps_matching_rows (startMs endMs numBuckets : Int)
    (pre post : List StatsRow) (r : StatsRow)
    (hlast : ∀ r' ∈ post, r'.bucket_start ≠ r.bucket_start) :
    (∀ (i : Nat)
        (hi : i < (getBucketedSeries startMs endMs numBuckets (pre ++ r :: post)).length),
      bucketKeyAt startMs endMs numBuckets i = r.bucket_start →
      (getBucketedSeries startMs endMs numBuckets (pre ++ r :: post)).get ⟨i, hi⟩ = r) ∧
    ((∃ i, i < numBuckets.toNat ∧ bucketKeyAt startMs endMs numBuckets i = r.bucket_start) →
      r ∈ getBucketedSeries startMs endMs numBuckets (pre ++ r :: post)) := by
  have hkey : ∀ (i : Nat)
      (hi : i < (getBucketedSeries startMs endMs numBuckets (pre ++ r :: post)).length),
      bucketKeyAt startMs endMs numBuckets i = r.bucket_start →
      (getBucketedSeries startMs endMs numBuckets (pre ++ r :: post)).get ⟨i, hi⟩ = r := by
    intro i hi hk
    rw [getBucketedSeries_getElem, hk]
    unfold bucketEntry
    rw [dataMapGet_last pre post r hlast]
  refine ⟨hkey, ?_⟩
  rintro ⟨i, hilt, hk⟩
  have hi : i < (getBucketedSeries startMs endMs numBuckets (pre ++ r :: post)).length := by
    rw [getBucketedSeries_length]; exact hilt
  have hmem : (getBucketedSeries startMs endMs numBuckets (pre ++ r :: post)).get ⟨i, hi⟩ ∈
      getBucketedSeries startMs endMs numBuckets (pre ++ r :: post) :=
    List.get_mem _ _ _
  rwa [hkey i hi hk] at hmem

/-- Witness for `bucketed_series_keeps_matching_rows`: the row in bucket
3000 ms is kept at entry 1 of the series for `startMs = 0`, `endMs = 10000`,
`numBuckets = 3`. -/
theorem bucketed_series_keeps_matching_rows_witness :
    (∀ r' ∈ ([] : List StatsRow), r'.bucket_start ≠ (3000 : Int)) ∧
    ((∀ (i : Nat)
        (hi : i < (getBucketedSeries 0 10000 3 ([] ++ ⟨3000, 5, 6, 7, 8⟩ :: [])).length),
      bucketKeyAt 0 10000 3 i = (⟨3000, 5, 6, 7, 8⟩ : StatsRow).bucket_start →
      (getBucketedSeries 0 10000 3 ([] ++ ⟨3000, 5, 6, 7, 8⟩ :: [])).get ⟨i, hi⟩ =
        ⟨3000, 5, 6, 7, 8⟩) ∧
    ((∃ i, i < (3 : Int).toNat ∧
        bucketKeyAt 0 10000 3 i = (⟨3000, 5, 6, 7, 8⟩ : StatsRow).bucket_start) →
      (⟨3000, 5, 6, 7, 8⟩ : StatsRow) ∈
        getBucketedSeries 0 10000 3 ([] ++ ⟨3000, 5, 6, 7, 8⟩ :: []))) :=
  ⟨by decide,
    bucketed_series_keeps_matching_rows 0 10000 3 [] [] ⟨3000, 5, 6, 7, 8⟩ (by decide)⟩

/-- C3: if the SQL query result of `getOverallStatisticsUncached` is null or
an empty list, the function returns all-zero statistics with
`latest_block_timestamp` equal to the current time at the call (`new
Date()`, the `now` argument); otherwise it returns exactly the five fields
of the first result row. -/
theorem overall_stats_fallback (now : Int) (result : Option (List OverallRow)) :
    ((result = none ∨ result = some []) →
      overallProcess now result = ⟨0, 0, 0, 0, now⟩) ∧
    (∀ (r : OverallRow) (rest : List OverallRow), result = some (r :: rest) →
      overallProcess now result = r) := by
  constructor
  · rintro (rfl | rfl) <;> rfl
  · rintro r rest rfl
    rfl

/-- Witness for `overall_stats_fallback`: the empty fallback at `now = 9`
and the first-row case on a one-row result. -/
theorem overall_stats_fallback_witness :
    overallProcess 9 (some []) = ⟨0, 0, 0, 0, 9⟩ ∧
      overallProcess 9 (some [⟨1, 2, 3, 4, 7⟩]) = ⟨1, 2, 3, 4, 7⟩ :=
  ⟨(overall_stats_fallback 9 (some [])).1 (Or.inr rfl),
    (overall_stats_fallback 9 (some [⟨1, 2, 3, 4, 7⟩])).2 ⟨1, 2, 3, 4, 7⟩ [] rfl⟩

/-- C4: each of `getOverallStatisticsUncached`,
`getBucketedStatisticsUncached` and `listTopSellersUncached` fails with an
error whose message starts with `'Invalid input: '` if and only if its input
fails the zod input schema; on an accepted input no such validation error is
raised (the call returns a value). -/
theorem validation_error_iff_schema_rejects (now : Int)
    (rawO : RawOverallInput) (qO : Option (List OverallRow))
    (rawB : RawBucketedInput) (qB : Option (List StatsRow))
    (rawS : RawTopSellersInput) (limit : Int) (qS : Option (List SellerRow)) :
    ((∃ msg, getOverallStatisticsUncached now rawO qO =
        .error ("Invalid input: " ++ msg)) ↔ overallAccepts rawO = false) ∧
    (overallAccepts rawO = true →
      ∃ out, getOverallStatisticsUncached now rawO qO = .ok out) ∧
    ((∃ msg, getBucketedStatisticsUncached now rawB qB =
        .error ("Invalid input: " ++ msg)) ↔ bucketedAccepts rawB = false) ∧
    (bucketedAccepts rawB = true →
      ∃ out, getBucketedStatisticsUncached now rawB qB = .ok out) ∧
    ((∃ msg, listTopSellersUncached rawS limit qS =
        .error ("Invalid input: " ++ msg)) ↔ topSellersAccepts rawS = false) ∧
    (topSellersAccepts rawS = true →
      ∃ out, listTopSellersUncached rawS limit qS = .ok out) := by
  refine ⟨?_, ?_, ?_, ?_, ?_, ?_⟩
  · cases h : overallAccepts rawO with
    | true => simp [getOverallStatisticsUncached, overallSafeParse, h]
    | false =>
      simp only [getOverallStatisticsUncached, overallSafeParse, h, if_false]
      exact ⟨fun _ => trivial, fun _ => ⟨"invalid ethereum address", rfl⟩⟩
  · intro h
    simp [getOverallStatisticsUncached, overallSafeParse, h]
  · cases h : bucketedAccepts rawB with
    | true => simp [getBucketedStatisticsUncached, bucketedSafeParse, h]
    | false =>
      simp only [getBucketedStatisticsUncached, bucketedSafeParse, h, if_false]
      exact ⟨fun _ => trivial, fun _ => ⟨"invalid ethereum address", rfl⟩⟩
  · intro h
    simp [getBucketedStatisticsUncached, bucketedSafeParse, h]
  · cases hs : rawS.sorting with
    | none =>
      have h : topSellersAccepts rawS = false := by
        simp [topSellersAccepts, hs]
      simp only [listTopSellersUncached, topSellersSafeParse, hs, h]
      exact ⟨fun _ => trivial, fun _ => ⟨"sorting is required", rfl⟩⟩
    | some s =>
      cases h : topSellersAccepts rawS with
      | true =>
        simp only [listTopSellersUncached, topSellersSafeParse, hs, h, if_true]
        cases qS <;> simp
      | false =>
        simp only [listTopSellersUncached, topSellersSafeParse, hs, h, if_false]
        exact ⟨fun _ => trivial, fun _ => ⟨"invalid input", rfl⟩⟩
  · intro h
    have hs : ∃ s, rawS.sorting = some s := by
      cases hs : rawS.sorting with
      | none => simp [topSellersAccepts, hs] at h
      | some s => exact ⟨s, rfl⟩
    obtain ⟨s, hs⟩ := hs
    simp only [listTopSellersUncached, topSellersSafeParse, hs, h, if_true]
    cases qS <;> simp

/-- Witness for `validation_error_iff_schema_rejects`: an accepted input for
each operation (all fields absent, with a valid sorting for top sellers)
returns a value, and a rejected input (a malformed token address) yields an
error with the `'Invalid input: '` prefix. -/
theorem validation_error_iff_schema_rejects_witness :
    ((∃ msg, getOverallStatisticsUncached 0 ⟨none, some ["bogus"], none, none, none⟩ none =
        .error ("Invalid input: " ++ msg)) ↔
      overallAccepts ⟨none, some ["bogus"], none, none, none⟩ = false) ∧
    (overallAccepts ⟨none, some ["bogus"], none, none, none⟩ = true →
      ∃ out, getOverallStatisticsUncached 0 ⟨none, some ["bogus"], none, none, none⟩ none =
        .ok out) ∧
    ((∃ msg, getBucketedStatisticsUncached 0 ⟨none, none, none, none, none, none⟩ none =
        .error ("Invalid input: " ++ msg)) ↔
      bucketedAccepts ⟨none, none, none, none, none, none⟩ = false) ∧
    (bucketedAccepts ⟨none, none, none, none, none, none⟩ = true →
      ∃ out, getBucketedStatisticsUncached 0 ⟨none, none, none, none, none, none⟩ none =
        .ok out) ∧
    ((∃ msg, listTopSellersUncached ⟨none, none, some ⟨"tx_count", true⟩, none, none, none⟩
        10 none = .error ("Invalid input: " ++ msg)) ↔
      topSellersAccepts ⟨none, none, some ⟨"tx_count", true⟩, none, none, none⟩ = false) ∧
    (topSellersAccepts ⟨none, none, some ⟨"tx_count", true⟩, none, none, none⟩ = true →
      ∃ out, listTopSellersUncached ⟨none, none, some ⟨"tx_count", true⟩, none, none, none⟩
        10 none = .ok out) :=
  validation_error_iff_schema_rejects 0 ⟨none, some ["bogus"], none, none, none⟩ none
    ⟨none, none, none, none, none, none⟩ none
    ⟨none, none, some ⟨"tx_count", true⟩, none, none, none⟩ 10 none

/-- C10: the bucketed-statistics input schema accepts any `numBuckets` value
(acceptance never inspects it), including zero and negative numbers; and for
every accepted input with `numBuckets ≤ 0`, `getBucketedStatisticsUncached`
returns an empty series regardless of what the SQL query returns (the
zero-fill loop `for (let i = 0; i < numBuckets; i++)` runs zero times). -/
theorem bucketed_nonpositive_numBuckets_empty (raw : RawBucketedInput) (n : Int)
    (now startMs endMs numBuckets : Int) (hnb : numBuckets ≤ 0)
    (queryResult : Option (List StatsRow)) :
    bucketedAccepts { raw with numBuckets := some n } = bucketedAccepts raw ∧
    getBucketedStatisticsProcess startMs endMs numBuckets queryResult = [] ∧
    (raw.numBuckets = some numBuckets → bucketedAccepts raw = true →
      getBucketedStatisticsUncached now raw queryResult = .ok []) := by
  have hproc : getBucketedStatisticsProcess startMs endMs numBuckets queryResult = [] := by
    cases queryResult with
    | none => rfl
    | some rows =>
      simp [getBucketedStatisticsProcess, getBucketedSeries, Int.toNat_of_nonpos hnb]
  refine ⟨rfl, hproc, ?_⟩
  intro hmem hacc
  simp only [getBucketedStatisticsUncached, bucketedSafeParse, hacc, if_true]
  have hproc2 : getBucketedStatisticsProcess (raw.startDate.getD (subMonthMs now))
      (raw.endDate.getD now) (raw.numBuckets.getD 48) queryResult = [] := by
    rw [hmem]
    cases queryResult with
    | none => rfl
    | some rows =>
      simp [getBucketedStatisticsProcess, getBucketedSeries, Int.toNat_of_nonpos hnb]
  rw [hproc2]

/-- Witness for `bucketed_nonpositive_numBuckets_empty` at
`numBuckets = -2` with a non-empty query result. -/
theorem bucketed_nonpositive_numBuckets_empty_witness :
    (-2 : Int) ≤ 0 ∧
    (bucketedAccepts { (⟨none, none, none, none, none, some (-2)⟩ : RawBucketedInput) with
        numBuckets := some 7 } =
      bucketedAccepts ⟨none, none, none, none, none, some (-2)⟩ ∧
    getBucketedStatisticsProcess 0 10000 (-2) (some [⟨3000, 5, 6, 7, 8⟩]) = [] ∧
    ((⟨none, none, none, none, none, some (-2)⟩ : RawBucketedInput).numBuckets = some (-2) →
      bucketedAccepts ⟨none, none, none, none, none, some (-2)⟩ = true →
      getBucketedStatisticsUncached 0 ⟨none, none, none, none, none, some (-2)⟩
        (some [⟨3000, 5, 6, 7, 8⟩]) = .ok [])) :=
  ⟨by decide,
    bucketed_nonpositive_numBuckets_empty ⟨none, none, none, none, none, some (-2)⟩ 7
      0 0 10000 (-2) (by decide) (some [⟨3000, 5, 6, 7, 8⟩])⟩

/-- C5 is false as stated: the top-facilitators schema accepts any number as
`limit` (`z.number().default(100)`), and at `limit = -1` with one query row
the slice `.slice(0, -1)` yields 0 output rows, which is not "at most
`limit`" rows; `min(k, limit)` is likewise meaningless there. -/
theorem listTopFacilitators_limit_counterexample :
    ¬ (((listTopFacilitatorsProcess (-1)
        (some [⟨0, 0, 0, 0, 0, "Unknown"⟩])).length : Int) ≤ -1) := by
  decide

/-- C5 (amended): for every input accepted by the top-facilitators schema
whose `limit` is nonnegative, `listTopFacilitatorsUncached` returns at most
`limit` rows — exactly the first `min(k, limit)` rows of the `k`-row query
result, in query order, each enriched with its facilitator entity — even
though the SQL it issues requests `LIMIT limit + 1` rows. -/
theorem listTopFacilitators_limit (limit : Int) (hl : 0 ≤ limit)
    (rows : List FacilitatorRow) :
    listTopFacilitatorsProcess limit (some rows) =
      (rows.map enrichFacilitatorRow).take limit.toNat ∧
    ((listTopFacilitatorsProcess limit (some rows)).length : Int) ≤ limit ∧
    (listTopFacilitatorsProcess limit (some rows)).length =
      min rows.length limit.toNat ∧
    (∀ p : TopFacilitatorsInput, p.limit = limit →
      ∃ pre, topFacilitatorsSql p = pre ++ (" \nLIMIT " ++ intStr (limit + 1))) := by
  have hslice : listTopFacilitatorsProcess limit (some rows) =
      (rows.map enrichFacilitatorRow).take limit.toNat := by
    simp only [listTopFacilitatorsProcess, jsSlice0, if_neg (not_lt.mpr hl)]
  refine ⟨hslice, ?_, ?_, ?_⟩
  · rw [hslice]
    have := List.length_take limit.toNat (rows.map enrichFacilitatorRow)
    rw [this]
    have h1 : min limit.toNat (rows.map enrichFacilitatorRow).length ≤ limit.toNat :=
      Nat.min_le_left _ _
    omega
  · rw [hslice, List.length_take, List.length_map, Nat.min_comm]
  · intro p hp
    refine ⟨"SELECT \n    COUNT(DISTINCT parameters['to']::String) AS unique_sellers,\n    COUNT(DISTINCT parameters['from']::String) AS unique_buyers,\n    COUNT(DISTINCT transaction_hash) AS tx_count, \n    SUM(parameters['value']::UInt256) AS total_amount,\n    max(block_timestamp) AS latest_block_timestamp,\n    CASE\n    " ++
      (caseBranches ++
      ("\n    ELSE 'Unknown'\n    END AS facilitator_name\nFROM base.events \nWHERE event_signature = 'Transfer(address,address,uint256)'\n    AND address IN (" ++
      (quotedList p.tokens ++
      (")\n    AND transaction_from IN (" ++
      (quotedList allFacilitatorAddresses ++
      (")\n    " ++
      (startDateClause p.startDate ++
      ("\n    " ++
      (endDateClause p.endDate ++
      ("\nGROUP BY \n    CASE\n    " ++
      (caseBranches ++
      ("\n    ELSE 'Unknown'\n    END\nORDER BY " ++
      (p.sorting.id ++
      (" " ++
      sortDir p.sorting.desc)))))))))))))), ?_⟩
    rw [topFacilitatorsSql, hp]
    simp only [String.append_assoc]

/-- Witness for `listTopFacilitators_limit` at `limit = 1` on a two-row
result. -/
theorem listTopFacilitators_limit_witness :
    (0 : Int) ≤ 1 ∧
    (listTopFacilitatorsProcess 1
        (some [⟨1, 2, 3, 4, 5, "Coinbase"⟩, ⟨6, 7, 8, 9, 10, "Unknown"⟩]) =
      ([⟨1, 2, 3, 4, 5, "Coinbase"⟩,
        (⟨6, 7, 8, 9, 10, "Unknown"⟩ : FacilitatorRow)].map
          enrichFacilitatorRow).take (1 : Int).toNat ∧
    ((listTopFacilitatorsProcess 1
        (some [⟨1, 2, 3, 4, 5, "Coinbase"⟩, ⟨6, 7, 8, 9, 10, "Unknown"⟩])).length : Int) ≤ 1 ∧
    (listTopFacilitatorsProcess 1
        (some [⟨1, 2, 3, 4, 5, "Coinbase"⟩, ⟨6, 7, 8, 9, 10, "Unknown"⟩])).length =
      min ([⟨1, 2, 3, 4, 5, "Coinbase"⟩,
        (⟨6, 7, 8, 9, 10, "Unknown"⟩ : FacilitatorRow)]).length (1 : Int).toNat ∧
    (∀ p : TopFacilitatorsInput, p.limit = 1 →
      ∃ pre, topFacilitatorsSql p = pre ++ (" \nLIMIT " ++ intStr (1 + 1)))) :=
  ⟨by decide, listTopFacilitators_limit 1 (by decide)
    [⟨1, 2, 3, 4, 5, "Coinbase"⟩, ⟨6, 7, 8, 9, 10, "Unknown"⟩]⟩

/-- C6: for every row of the top-facilitators SQL result, the `facilitator`
field of the corresponding output row is the defined named entity
`facilitatorNameMap.get(facilitator_name)`: for every `facilitator_name`
the query's `CASE` can produce — each facilitator's name, and the `ELSE`
value `'Unknown'` — the lookup is defined, so the non-null assertion on it
is valid. -/
theorem facilitatorNameMap_covers (name : String)
    (h : name ∈ facilitatorsList.map (fun f => f.name) ∨ name = "Unknown") :
    ∃ fac, facilitatorNameMapGet name = some fac ∧
      ∀ r : FacilitatorRow, r.facilitator_name = name →
        enrichFacilitatorRow r = (r, some fac) := by
  have hsome : ∃ fac, facilitatorNameMapGet name = some fac := by
    rcases h with h | rfl
    · simp only [facilitatorsList, List.map, List.mem_cons, List.not_mem_nil,
        or_false] at h
      rcases h with rfl | rfl
      · exact ⟨_, rfl⟩
      · exact ⟨_, rfl⟩
    · exact ⟨_, rfl⟩
  obtain ⟨fac, hfac⟩ := hsome
  refine ⟨fac, hfac, ?_⟩
  intro r hr
  simp only [enrichFacilitatorRow, hr, hfac]

/-- Witness for `facilitatorNameMap_covers` at the `CASE` fallback value
`'Unknown'`. -/
theorem facilitatorNameMap_covers_witness :
    ("Unknown" ∈ facilitatorsList.map (fun f => f.name) ∨ "Unknown" = "Unknown") ∧
    ∃ fac, facilitatorNameMapGet "Unknown" = some fac ∧
      ∀ r : FacilitatorRow, r.facilitator_name = "Unknown" →
        enrichFacilitatorRow r = (r, some fac) :=
  ⟨Or.inr rfl, facilitatorNameMap_covers "Unknown" (Or.inr rfl)⟩

/-! ## Lemmas about the collapse of the bucketed-facilitators result -/

theorem recordGet_overwrite (m : List (String × FacStats)) (k : String) (v : FacStats)
    (h : m.any (fun p => p.1 == k) = true) :
    recordGet (m.map (fun p => if p.1 == k then (k, v) else p)) k = some v := by
  induction m with
  | nil => simp at h
  | cons q qs ih =>
    cases hq : (q.1 == k) with
    | true =>
      simp only [List.map_cons, hq, if_true, recordGet]
      rw [List.find?_cons_of_pos _ (by simp)]
      rfl
    | false =>
      have hqs : qs.any (fun p => p.1 == k) = true := by
        simp only [List.any_cons, hq, Bool.false_or] at h
        exact h
      simp only [List.map_cons, hq, if_false, recordGet]
      rw [List.find?_cons_of_neg _ (by simp [hq])]
      exact ih hqs

theorem recordGet_map_other (m : List (String × FacStats)) (k : String) (v : FacStats)
    (k' : String) (hk : k' ≠ k) :
    recordGet (m.map (fun p => if p.1 == k then (k, v) else p)) k' = recordGet m k' := by
  have hkk : ((k == k') = false) := beq_eq_false_iff_ne.mpr (Ne.symm hk)
  induction m with
  | nil => rfl
  | cons q qs ih =>
    cases hq : (q.1 == k) with
    | true =>
      have hq1 : q.1 = k := by simpa using hq
      have hq2 : ((q.1 == k') = false) := by rw [hq1]; exact hkk
      simp only [List.map_cons, hq, if_true, recordGet]
      rw [List.find?_cons_of_neg _ (by simp [hkk]),
        List.find?_cons_of_neg _ (by simp [hq2])]
      exact ih
    | false =>
      simp only [List.map_cons, hq, if_false, recordGet]
      cases hq' : (q.1 == k') with
      | true =>
        rw [List.find?_cons_of_pos _ (by simp [hq']),
          List.find?_cons_of_pos _ (by simp [hq'])]
        simp
      | false =>
        rw [List.find?_cons_of_neg _ (by simp [hq']),
          List.find?_cons_of_neg _ (by simp [hq'])]
        exact ih

theorem find?_eq_none_of_any_false (m : List (String × FacStats)) (k : String)
    (h : m.any (fun p => p.1 == k) = false) :
    m.find? (fun p => p.1 == k) = none := by
  rw [List.find?_eq_none]
  intro x hx hpx
  have : m.any (fun p => p.1 == k) = true := List.any_eq_true.mpr ⟨x, hx, hpx⟩
  rw [h] at this
  exact absurd this (by simp)

theorem recordGet_recordSet_same (m : List (String × FacStats)) (k : String)
    (v : FacStats) : recordGet (recordSet m k v) k = some v := by
  unfold recordSet
  cases h : m.any (fun p => p.1 == k) with
  | true =>
    rw [if_pos rfl]
    exact recordGet_overwrite m k v h
  | false =>
    rw [if_neg (by simp)]
    unfold recordGet
    rw [List.find?_append, find?_eq_none_of_any_false m k h]
    simp [List.find?]

theorem recordGet_recordSet_other (m : List (String × FacStats)) (k : String)
    (v : FacStats) (k' : String) (hk : k' ≠ k) :
    recordGet (recordSet m k v) k' = recordGet m k' := by
  unfold recordSet
  cases h : m.any (fun p => p.1 == k) with
  | true =>
    rw [if_pos rfl]
    exact recordGet_map_other m k v k' hk
  | false =>
    rw [if_neg (by simp)]
    unfold recordGet
    rw [List.find?_append]
    have hkk : ((k == k') = false) := beq_eq_false_iff_ne.mpr (Ne.symm hk)
    have hnone : List.find? (fun p => p.1 == k') [(k, v)] = none := by
      simp [List.find?, hkk]
    rw [hnone]
    cases m.find? (fun p => p.1 == k') <;> rfl

theorem mem_recordSet {m : List (String × FacStats)} {k : String} {v : FacStats}
    {p : String × FacStats} (hp : p ∈ recordSet m k v) : p = (k, v) ∨ p ∈ m := by
  unfold recordSet at hp
  by_cases h : m.any (fun q => q.1 == k) = true
  · rw [if_pos h] at hp
    rw [List.mem_map] at hp
    obtain ⟨q, hq, hpq⟩ := hp
    cases h1 : (q.1 == k) with
    | true =>
      rw [h1, if_pos rfl] at hpq
      left
      exact hpq.symm
    | false =>
      rw [h1, if_neg (by simp)] at hpq
      right
      rw [← hpq]
      exact hq
  · rw [if_neg h] at hp
    rw [List.mem_append] at hp
    rcases hp with h1 | h1
    · right; exact h1
    · left; simpa using h1

theorem updateFirst_keys (acc : List CollapsedBucket) (k : Int) (n : String)
    (v : FacStats) :
    (updateFirst acc k n v).map (fun b => b.bucket_start) =
      acc.map (fun b => b.bucket_start) := by
  induction acc with
  | nil => rfl
  | cons b bs ih =>
    unfold updateFirst
    cases hb : (b.bucket_start == k) with
    | true => simp
    | false => simpa using ih

theorem mem_updateFirst {acc : List CollapsedBucket} {k : Int} {n : String}
    {v : FacStats} {b : CollapsedBucket} (hb : b ∈ updateFirst acc k n v) :
    b ∈ acc ∨ ∃ b0 ∈ acc, b0.bucket_start = k ∧
      b = ⟨b0.bucket_start, recordSet b0.facilitators n v⟩ := by
  induction acc with
  | nil => simp [updateFirst] at hb
  | cons b1 bs ih =>
    unfold updateFirst at hb
    cases h1 : (b1.bucket_start == k) with
    | true =>
      rw [h1, if_pos rfl] at hb
      rcases List.mem_cons.mp hb with h | h
      · right
        exact ⟨b1, List.mem_cons_self _ _, by simpa using h1, h⟩
      · left
        exact List.mem_cons_of_mem _ h
    | false =>
      rw [h1, if_neg (by simp)] at hb
      rcases List.mem_cons.mp hb with h | h
      · left
        rw [h]
        exact List.mem_cons_self _ _
      · rcases ih h with h2 | ⟨b0, hb0, hk0, hb2⟩
        · left
          exact List.mem_cons_of_mem _ h2
        · right
          exact ⟨b0, List.mem_cons_of_mem _ hb0, hk0, hb2⟩

theorem updateFirst_of_ne {acc : List CollapsedBucket} {k : Int} {n : String}
    {v : FacStats} {b : CollapsedBucket} (hb : b ∈ acc)
    (hk : b.bucket_start ≠ k) : b ∈ updateFirst acc k n v := by
  induction acc with
  | nil => simp at hb
  | cons b1 bs ih =>
    unfold updateFirst
    rcases List.mem_cons.mp hb with h | h
    · cases h1 : (b1.bucket_start == k) with
      | true =>
        exact absurd (by rw [h]; simpa using h1) hk
      | false =>
        rw [if_neg (by simp)]
        rw [h]
        exact List.mem_cons_self _ _
    · cases h1 : (b1.bucket_start == k) with
      | true =>
        rw [if_pos rfl]
        exact List.mem_cons_of_mem _ h
      | false =>
        rw [if_neg (by simp)]
        exact List.mem_cons_of_mem _ (ih h)

theorem updateFirst_unique {acc : List CollapsedBucket} {k : Int} {n : String}
    {v : FacStats} {b : CollapsedBucket}
    (hnd : (acc.map (fun x => x.bucket_start)).Nodup)
    (hb : b ∈ acc) (hk : b.bucket_start = k) :
    (⟨b.bucket_start, recordSet b.facilitators n v⟩ : CollapsedBucket) ∈
      updateFirst acc k n v := by
  induction acc with
  | nil => simp at hb
  | cons b1 bs ih =>
    rw [List.map_cons, List.nodup_cons] at hnd
    unfold updateFirst
    rcases List.mem_cons.mp hb with h | h
    · rw [← h, hk]
      rw [if_pos (by simp [← h, hk])]
      rw [← hk]
      exact List.mem_cons_self _ _
    · cases h1 : (b1.bucket_start == k) with
      | true =>
        have hb1 : b1.bucket_start = k := by simpa using h1
        exfalso
        apply hnd.1
        rw [List.mem_map]
        exact ⟨b, h, by rw [hk, ← hb1]⟩
      | false =>
        rw [if_neg (by simp)]
        exact List.mem_cons_of_mem _ (ih hnd.2 h)

theorem updateFirst_first_match {acc : List CollapsedBucket} {k : Int} {n : String}
    {v : FacStats} (h : acc.any (fun x => x.bucket_start == k) = true) :
    ∃ m0, (⟨k, recordSet m0 n v⟩ : CollapsedBucket) ∈ updateFirst acc k n v := by
  induction acc with
  | nil => simp at h
  | cons b1 bs ih =>
    unfold updateFirst
    cases h1 : (b1.bucket_start == k) with
    | true =>
      have hb1 : b1.bucket_start = k := by simpa using h1
      refine ⟨b1.facilitators, ?_⟩
      rw [if_pos rfl, hb1]
      exact List.mem_cons_self _ _
    | false =>
      have hbs : bs.any (fun x => x.bucket_start == k) = true := by
        simp only [List.any_cons, h1, Bool.false_or] at h
        exact h
      obtain ⟨m0, hm0⟩ := ih hbs
      refine ⟨m0, ?_⟩
      rw [if_neg (by simp)]
      exact List.mem_cons_of_mem _ hm0

theorem updateFirst_append_fresh {acc : List CollapsedBucket} {k : Int}
    {m : List (String × FacStats)} {n : String} {v : FacStats}
    (h : acc.any (fun x => x.bucket_start == k) = false) :
    updateFirst (acc ++ [⟨k, m⟩]) k n v = acc ++ [⟨k, recordSet m n v⟩] := by
  induction acc with
  | nil => simp [updateFirst]
  | cons b1 bs ih =>
    have h1 : (b1.bucket_start == k) = false := by
      simp only [List.any_cons] at h
      exact (Bool.or_eq_false_iff.mp h).1
    have hbs : bs.any (fun x => x.bucket_start == k) = false := by
      simp only [List.any_cons] at h
      exact (Bool.or_eq_false_iff.mp h).2
    rw [List.cons_append]
    unfold updateFirst
    rw [h1, if_neg (by simp)]
    rw [ih hbs, List.cons_append]

theorem any_bucket_eq (acc : List CollapsedBucket) (k : Int) :
    acc.any (fun b => b.bucket_start == k) = true ↔
      k ∈ acc.map (fun b => b.bucket_start) := by
  rw [List.any_eq_true, List.mem_map]
  constructor
  · rintro ⟨b, hb, hk⟩
    exact ⟨b, hb, by simpa using hk⟩
  · rintro ⟨b, hb, hk⟩
    exact ⟨b, hb, by simpa using hk⟩

theorem collapseStep_keys (acc : List CollapsedBucket) (item : FacStatsRow) :
    (collapseStep acc item).map (fun b => b.bucket_start) =
      if item.bucket_start ∈ acc.map (fun b => b.bucket_start) then
        acc.map (fun b => b.bucket_start)
      else acc.map (fun b => b.bucket_start) ++ [item.bucket_start] := by
  unfold collapseStep
  cases h : acc.any (fun b => b.bucket_start == item.bucket_start) with
  | true =>
    rw [if_pos rfl, if_pos ((any_bucket_eq acc _).mp h), updateFirst_keys]
  | false =>
    have hnot : item.bucket_start ∉ acc.map (fun b => b.bucket_start) := by
      intro hmem
      have := (any_bucket_eq acc _).mpr hmem
      rw [h] at this
      exact absurd this (by simp)
    rw [if_neg (by simp), if_neg hnot, updateFirst_keys, List.map_append]
    rfl

theorem collapse_keys_general (rows : List FacStatsRow) :
    ∀ acc : List CollapsedBucket,
      (rows.foldl collapseStep acc).map (fun b => b.bucket_start) =
        (rows.map (fun r => r.bucket_start)).foldl
          (fun ks k => if k ∈ ks then ks else ks ++ [k])
          (acc.map (fun b => b.bucket_start)) := by
  induction rows with
  | nil => intro acc; rfl
  | cons x xs ih =>
    intro acc
    simp only [List.foldl_cons, List.map_cons]
    rw [ih (collapseStep acc x), collapseStep_keys]

/-- C7 part "each distinct `bucket_start` exactly once, in order of first
appearance" — the collapsed bucket keys. -/
theorem collapse_keys (rows : List FacStatsRow) :
    (collapse rows).map (fun b => b.bucket_start) =
      firstOcc (rows.map (fun r => r.bucket_start)) :=
  collapse_keys_general rows []

theorem firstOcc_fold_nodup (ks : List Int) :
    ∀ acc : List Int, acc.Nodup →
      (ks.foldl (fun a k => if k ∈ a then a else a ++ [k]) acc).Nodup := by
  induction ks with
  | nil => intro acc h; exact h
  | cons k ks ih =>
    intro acc h
    simp only [List.foldl_cons]
    apply ih
    by_cases hk : k ∈ acc
    · simpa [hk]
    · rw [if_neg hk]
      exact List.Nodup.append h (List.nodup_singleton k) (by simpa using hk)

theorem collapse_keys_nodup (rows : List FacStatsRow) :
    ((collapse rows).map (fun b => b.bucket_start)).Nodup := by
  rw [collapse_keys]
  exact firstOcc_fold_nodup _ [] List.nodup_nil

theorem collapseStep_nodup {acc : List CollapsedBucket} {item : FacStatsRow}
    (hnd : (acc.map (fun x => x.bucket_start)).Nodup) :
    ((collapseStep acc item).map (fun x => x.bucket_start)).Nodup := by
  rw [collapseStep_keys]
  by_cases h : item.bucket_start ∈ acc.map (fun b => b.bucket_start)
  · rwa [if_pos h]
  · rw [if_neg h]
    exact List.Nodup.append hnd (List.nodup_singleton _) (by simpa using h)

theorem collapseStep_mem {acc : List CollapsedBucket} {item : FacStatsRow}
    {b : CollapsedBucket} (hb : b ∈ collapseStep acc item) :
    ∀ p ∈ b.facilitators,
      (∃ b0 ∈ acc, b0.bucket_start = b.bucket_start ∧ p ∈ b0.facilitators) ∨
      (item.bucket_start = b.bucket_start ∧ item.facilitator_name = p.1 ∧
        item.stats = p.2) := by
  intro p hp
  unfold collapseStep at hb
  cases hany : acc.any (fun x => x.bucket_start == item.bucket_start) with
  | true =>
    rw [hany, if_pos rfl] at hb
    rcases mem_updateFirst hb with h | ⟨b0, hb0, hk0, hbeq⟩
    · left
      exact ⟨b, h, rfl, hp⟩
    · rw [hbeq] at hp
      rcases mem_recordSet hp with h2 | h2
      · right
        refine ⟨?_, ?_, ?_⟩
        · rw [hbeq]
          exact hk0.symm
        · rw [h2]
        · rw [h2]
      · left
        exact ⟨b0, hb0, by rw [hbeq], h2⟩
  | false =>
    rw [hany, if_neg (by simp)] at hb
    rcases mem_updateFirst hb with h | ⟨b0, hb0, hk0, hbeq⟩
    · rcases List.mem_append.mp h with h2 | h2
      · left
        exact ⟨b, h2, rfl, hp⟩
      · have hbnew : b = ⟨item.bucket_start, []⟩ := by simpa using h2
        rw [hbnew] at hp
        simp at hp
    · rw [hbeq] at hp
      rcases mem_recordSet hp with h2 | h2
      · right
        refine ⟨?_, ?_, ?_⟩
        · rw [hbeq]
          exact hk0.symm
        · rw [h2]
        · rw [h2]
      · rcases List.mem_append.mp hb0 with h3 | h3
        · left
          exact ⟨b0, h3, by rw [hbeq], h2⟩
        · have hbnew : b0 = ⟨item.bucket_start, []⟩ := by simpa using h3
          rw [hbnew] at h2
          simp at h2

theorem collapse_complete_aux (rows : List FacStatsRow) :
    ∀ (acc : List CollapsedBucket) (seen : List FacStatsRow),
      (∀ b ∈ acc, ∀ p ∈ b.facilitators, ∃ r ∈ seen,
        r.bucket_start = b.bucket_start ∧ r.facilitator_name = p.1 ∧
          r.stats = p.2) →
      ∀ b ∈ rows.foldl collapseStep acc, ∀ p ∈ b.facilitators,
        ∃ r ∈ seen ++ rows, r.bucket_start = b.bucket_start ∧
          r.facilitator_name = p.1 ∧ r.stats = p.2 := by
  induction rows with
  | nil =>
    intro acc seen hacc b hb p hp
    simpa using hacc b hb p hp
  | cons x xs ih =>
    intro acc seen hacc b hb p hp
    have hstep : ∀ b ∈ collapseStep acc x, ∀ p ∈ b.facilitators,
        ∃ r ∈ seen ++ [x], r.bucket_start = b.bucket_start ∧
          r.facilitator_name = p.1 ∧ r.stats = p.2 := by
      intro b1 hb1 p1 hp1
      rcases collapseStep_mem hb1 p1 hp1 with ⟨b0, hb0, hk0, hp0⟩ | ⟨h1, h2, h3⟩
      · obtain ⟨r, hr, hr1, hr2, hr3⟩ := hacc b0 hb0 p1 hp0
        exact ⟨r, List.mem_append_left _ hr, by rw [hr1, hk0], hr2, hr3⟩
      · exact ⟨x, List.mem_append_right _ (by simp), h1, h2, h3⟩
    have := ih (collapseStep acc x) (seen ++ [x]) hstep b (by simpa using hb) p hp
    obtain ⟨r, hr, hprops⟩ := this
    refine ⟨r, ?_, hprops⟩
    rw [List.append_assoc] at hr
    simpa using hr

theorem collapseStep_establishes (acc : List CollapsedBucket) (r : FacStatsRow) :
    ∃ b ∈ collapseStep acc r, b.bucket_start = r.bucket_start ∧
      recordGet b.facilitators r.facilitator_name = some r.stats := by
  unfold collapseStep
  cases hany : acc.any (fun x => x.bucket_start == r.bucket_start) with
  | true =>
    rw [if_pos rfl]
    obtain ⟨m0, hm0⟩ := updateFirst_first_match hany
    exact ⟨_, hm0, rfl, recordGet_recordSet_same _ _ _⟩
  | false =>
    rw [if_neg (by simp)]
    rw [updateFirst_append_fresh hany]
    refine ⟨⟨r.bucket_start, recordSet [] r.facilitator_name r.stats⟩,
      List.mem_append_right _ (by simp), rfl,
      recordGet_recordSet_same [] r.facilitator_name r.stats⟩

theorem collapseStep_preserves_entry {acc : List CollapsedBucket}
    {K : Int} {N : String} {S : FacStats} {item : FacStatsRow}
    (hnd : (acc.map (fun x => x.bucket_start)).Nodup)
    (havoid : ¬(item.bucket_start = K ∧ item.facilitator_name = N))
    (hE : ∃ b ∈ acc, b.bucket_start = K ∧
      recordGet b.facilitators N = some S) :
    ∃ b ∈ collapseStep acc item, b.bucket_start = K ∧
      recordGet b.facilitators N = some S := by
  obtain ⟨b, hb, hbk, hbg⟩ := hE
  by_cases hkey : item.bucket_start = K
  · have hname : N ≠ item.facilitator_name :=
      fun hn => havoid ⟨hkey, hn.symm⟩
    have hany : acc.any (fun x => x.bucket_start == item.bucket_start) = true :=
      List.any_eq_true.mpr ⟨b, hb, by simp [hbk, hkey]⟩
    unfold collapseStep
    rw [hany, if_pos rfl]
    have hmem := updateFirst_unique (k := item.bucket_start)
      (n := item.facilitator_name) (v := item.stats) hnd hb
      (by rw [hbk]; exact hkey.symm)
    refine ⟨_, hmem, hbk, ?_⟩
    rw [recordGet_recordSet_other _ _ _ _ hname]
    exact hbg
  · unfold collapseStep
    cases hany : acc.any (fun x => x.bucket_start == item.bucket_start) with
    | true =>
      rw [if_pos rfl]
      exact ⟨b, updateFirst_of_ne hb (by rw [hbk]; exact fun h => hkey h.symm),
        hbk, hbg⟩
    | false =>
      rw [if_neg (by simp)]
      exact ⟨b, updateFirst_of_ne (List.mem_append_left _ hb)
        (by rw [hbk]; exact fun h => hkey h.symm), hbk, hbg⟩

theorem collapse_fold_preserves_entry {K : Int} {N : String} {S : FacStats}
    (post : List FacStatsRow) :
    ∀ acc : List CollapsedBucket,
      (acc.map (fun x => x.bucket_start)).Nodup →
      (∀ r' ∈ post, ¬(r'.bucket_start = K ∧ r'.facilitator_name = N)) →
      (∃ b ∈ acc, b.bucket_start = K ∧ recordGet b.facilitators N = some S) →
      ∃ b ∈ post.foldl collapseStep acc, b.bucket_start = K ∧
        recordGet b.facilitators N = some S := by
  induction post with
  | nil => intro acc _ _ hE; exact hE
  | cons x xs ih =>
    intro acc hnd havoid hE
    simp only [List.foldl_cons]
    exact ih (collapseStep acc x) (collapseStep_nodup hnd)
      (fun r' hr' => havoid r' (List.mem_cons_of_mem _ hr'))
      (collapseStep_preserves_entry hnd (havoid x (List.mem_cons_self _ _)) hE)

/-- C7 is false as stated: when two result rows share `(bucket_start,
facilitator_name)` — which the claim's "for every SQL result list" admits —
the assignment `bucket.facilitators[facilitator_name] = rest` overwrites the
earlier row's statistics, which then appear nowhere in the output. -/
theorem collapse_overwrites_duplicate :
    collapse [⟨0, 1, 1, 1, 1, "A"⟩, ⟨0, 2, 2, 2, 2, "A"⟩] =
      [⟨0, [("A", ⟨2, 2, 2, 2⟩)]⟩] ∧
    ∀ b ∈ collapse [⟨0, 1, 1, 1, 1, "A"⟩, ⟨0, 2, 2, 2, 2, "A"⟩],
      ∀ p ∈ b.facilitators, p.2 ≠ (⟨1, 1, 1, 1⟩ : FacStats) := by
  decide

/-- C7 (amended): for every SQL result list, the collapsed output of
`getBucketedFacilitatorsStatisticsUncached` contains each distinct
`bucket_start` exactly once, in order of first appearance in the result;
each input row after which no later row carries the same `(bucket_start,
facilitator_name)` pair has its four statistics in the output bucket with
equal `bucket_start` under the key `facilitator_name` (the query groups by
exactly that pair, so for its results this is every row; on a duplicated
pair only the last row survives, per `collapse_overwrites_duplicate`); and
no statistics appear in the output that were not in some input row. -/
theorem collapse_groups (rows pre post : List FacStatsRow) (r : FacStatsRow) :
    ((collapse rows).map (fun b => b.bucket_start) =
      firstOcc (rows.map (fun x => x.bucket_start)) ∧
      ((collapse rows).map (fun b => b.bucket_start)).Nodup) ∧
    ((∀ r' ∈ post, ¬(r'.bucket_start = r.bucket_start ∧
        r'.facilitator_name = r.facilitator_name)) →
      ∃ b ∈ collapse (pre ++ r :: post), b.bucket_start = r.bucket_start ∧
        recordGet b.facilitators r.facilitator_name = some r.stats) ∧
    (∀ b ∈ collapse rows, ∀ p ∈ b.facilitators,
      ∃ x ∈ rows, x.bucket_start = b.bucket_start ∧
        x.facilitator_name = p.1 ∧ x.stats = p.2) := by
  refine ⟨⟨collapse_keys rows, collapse_keys_nodup rows⟩, ?_, ?_⟩
  · intro havoid
    unfold collapse
    rw [List.foldl_append]
    simp only [List.foldl_cons]
    have hnd : ((List.foldl collapseStep [] pre).map
        (fun x => x.bucket_start)).Nodup := collapse_keys_nodup pre
    exact collapse_fold_preserves_entry post _
      (collapseStep_nodup hnd) havoid
      (collapseStep_establishes (List.foldl collapseStep [] pre) r)
  · intro b hb p hp
    have := collapse_complete_aux rows [] [] (by simp) b hb p hp
    simpa using this

/-- Witness for `collapse_groups` on a one-row result. -/
theorem collapse_groups_witness :
    ((collapse [(⟨0, 1, 1, 1, 1, "A"⟩ : FacStatsRow)]).map
        (fun b => b.bucket_start) =
      firstOcc ([(⟨0, 1, 1, 1, 1, "A"⟩ : FacStatsRow)].map
        (fun x => x.bucket_start)) ∧
      ((collapse [(⟨0, 1, 1, 1, 1, "A"⟩ : FacStatsRow)]).map
        (fun b => b.bucket_start)).Nodup) ∧
    (∃ b ∈ collapse ([] ++ (⟨0, 1, 1, 1, 1, "A"⟩ : FacStatsRow) :: []),
      b.bucket_start = (⟨0, 1, 1, 1, 1, "A"⟩ : FacStatsRow).bucket_start ∧
      recordGet b.facilitators
        (⟨0, 1, 1, 1, 1, "A"⟩ : FacStatsRow).facilitator_name =
        some (⟨0, 1, 1, 1, 1, "A"⟩ : FacStatsRow).stats) ∧
    (∀ b ∈ collapse [(⟨0, 1, 1, 1, 1, "A"⟩ : FacStatsRow)],
      ∀ p ∈ b.facilitators,
      ∃ x ∈ [(⟨0, 1, 1, 1, 1, "A"⟩ : FacStatsRow)],
        x.bucket_start = b.bucket_start ∧
        x.facilitator_name = p.1 ∧ x.stats = p.2) := by
  obtain ⟨h1, h2, h3⟩ :=
    collapse_groups [⟨0, 1, 1, 1, 1, "A"⟩] [] [] ⟨0, 1, 1, 1, 1, "A"⟩
  exact ⟨h1, h2 (by simp), h3⟩

/-! ## Lemmas about the assembled SQL strings -/

theorem semiFree_append {a b : String} (ha : semiFree a) (hb : semiFree b) :
    semiFree (a ++ b) := by
  intro c hc
  rw [String.data_append] at hc
  rcases List.mem_append.mp hc with h | h
  · exact ha c h
  · exact hb c h

theorem semiFree_joinSep (sep : String) (hsep : semiFree sep) :
    ∀ xs : List String, (∀ x ∈ xs, semiFree x) → semiFree (joinSep sep xs) := by
  intro xs
  induction xs with
  | nil =>
    intro _ c hc
    simp [joinSep] at hc
  | cons x ys ih =>
    intro h
    cases ys with
    | nil => simpa [joinSep] using h x (by simp)
    | cons y zs =>
      show semiFree (x ++ sep ++ joinSep sep (y :: zs))
      exact semiFree_append (semiFree_append (h x (by simp)) hsep)
        (ih (fun z hz => h z (by simp [hz])))

theorem semiFree_quotedList (xs : List String) (h : ∀ x ∈ xs, semiFree x) :
    semiFree (quotedList xs) := by
  apply semiFree_joinSep _ (by decide)
  intro q hq
  rw [List.mem_map] at hq
  obtain ⟨x, hx, rfl⟩ := hq
  exact semiFree_append (semiFree_append (by decide) (h x hx)) (by decide)

theorem isHexDigit_ne_semi {c : Char} (h : isHexDigit c = true) : c ≠ ';' := by
  intro hc
  rw [hc] at h
  exact absurd h (by decide)

theorem semiFree_of_isEthereumAddress {s : String}
    (h : isEthereumAddress s = true) : semiFree s := by
  unfold isEthereumAddress at h
  split at h
  · rename_i rest heq
    intro c hc
    rw [heq] at hc
    have hall : rest.all isHexDigit = true := by
      simp only [Bool.and_eq_true] at h
      exact h.2
    rcases List.mem_cons.mp hc with rfl | hc2
    · decide
    · rcases List.mem_cons.mp hc2 with rfl | hc3
      · decide
      · exact isHexDigit_ne_semi (List.all_eq_true.mp hall c hc3)
  · exact absurd h (by simp)

theorem semiFree_quotedAddresses {xs : List String}
    (h : ∀ a ∈ xs, isEthereumAddress a = true) : semiFree (quotedList xs) :=
  semiFree_quotedList xs (fun x hx => semiFree_of_isEthereumAddress (h x hx))

theorem natDigits_mem {n : Nat} {c : Char} (hc : c ∈ natDigits n) :
    ∃ d, d < 10 ∧ c = Char.ofNat (48 + d) := by
  induction n using Nat.strong_induction_on with
  | _ n ih =>
    unfold natDigits at hc
    split at hc
    · rename_i hlt
      refine ⟨n, hlt, ?_⟩
      simpa using hc
    · rename_i hge
      rcases List.mem_append.mp hc with h1 | h1
      · exact ih (n / 10) (Nat.div_lt_self (by omega) (by omega)) h1
      · refine ⟨n % 10, Nat.mod_lt _ (by omega), ?_⟩
        simpa using h1

theorem digit_ne_semi {d : Nat} (hd : d < 10) : Char.ofNat (48 + d) ≠ ';' := by
  interval_cases d <;> decide

theorem semiFree_intStr (n : Int) : semiFree (intStr n) := by
  have hdig : ∀ m : Nat, semiFree (String.mk (natDigits m)) := by
    intro m c hc
    obtain ⟨d, hd, rfl⟩ := natDigits_mem hc
    exact digit_ne_semi hd
  unfold intStr
  split
  · exact semiFree_append (by decide) (hdig _)
  · exact hdig _

theorem semiFree_formatDateForSql (ms : Int) : semiFree (formatDateForSql ms) :=
  semiFree_intStr _

theorem semiFree_startDateClause (o : Option Int) : semiFree (startDateClause o) := by
  cases o with
  | none =>
    intro c hc
    simp [startDateClause] at hc
  | some d =>
    exact semiFree_append (semiFree_append (by decide)
      (semiFree_formatDateForSql d)) (by decide)

theorem semiFree_endDateClause (o : Option Int) : semiFree (endDateClause o) := by
  cases o with
  | none =>
    intro c hc
    simp [endDateClause] at hc
  | some d =>
    exact semiFree_append (semiFree_append (by decide)
      (semiFree_formatDateForSql d)) (by decide)

theorem semiFree_addressesClause {o : Option (List String)}
    (h : ∀ a ∈ o.getD [], isEthereumAddress a = true) :
    semiFree (addressesClause o) := by
  cases o with
  | none =>
    intro c hc
    simp [addressesClause] at hc
  | some l =>
    cases l with
    | nil =>
      intro c hc
      simp [addressesClause] at hc
    | cons a rest =>
      exact semiFree_append (semiFree_append (by decide)
        (semiFree_quotedAddresses (by simpa using h))) (by decide)

theorem semiFree_recipientClause {o : Option (List String)}
    (h : ∀ a ∈ o.getD [], isEthereumAddress a = true) :
    semiFree (recipientClause o) := by
  cases o with
  | none =>
    intro c hc
    simp [recipientClause] at hc
  | some l =>
    cases l with
    | nil =>
      intro c hc
      simp [recipientClause] at hc
    | cons a rest =>
      exact semiFree_append (semiFree_append (by decide)
        (semiFree_quotedAddresses (by simpa using h))) (by decide)

set_option maxRecDepth 4000 in
theorem semiFree_caseBranches : semiFree caseBranches := by decide

set_option maxRecDepth 4000 in
theorem semiFree_allFacQuoted : semiFree (quotedList allFacilitatorAddresses) := by
  decide

theorem semiFree_sortDir (d : Bool) : semiFree (sortDir d) := by
  cases d <;> decide

theorem singleStatement_of_semiFree {s : String} (h : semiFree s) :
    singleStatement s :=
  ⟨s.data, [], (List.append_nil _).symm, h, Or.inl rfl⟩

theorem singleStatement_append {a s : String} (ha : semiFree a)
    (hs : singleStatement s) : singleStatement (a ++ s) := by
  obtain ⟨x, y, hxy, hx, hy⟩ := hs
  refine ⟨a.data ++ x, y, ?_, ?_, hy⟩
  · rw [String.data_append, hxy, List.append_assoc]
  · intro c hc
    rcases List.mem_append.mp hc with h1 | h1
    · exact ha c h1
    · exact hx c h1

theorem startsWithSelect_append {a : String} (b : String)
    (h : startsWithSelect a) : startsWithSelect (a ++ b) := by
  obtain ⟨t, ht⟩ := h
  exact ⟨t ++ b.data, by rw [String.data_append, ← ht, List.append_assoc]⟩

theorem readsFrom_append_left {s : String} (a : String)
    (h : readsFromBaseEvents s) : readsFromBaseEvents (s ++ a) := by
  obtain ⟨x, y, hxy⟩ := h
  refine ⟨x, y ++ a.data, ?_⟩
  rw [String.data_append, ← hxy]
  simp [List.append_assoc]

theorem readsFrom_append_right {s : String} (a : String)
    (h : readsFromBaseEvents s) : readsFromBaseEvents (a ++ s) := by
  obtain ⟨x, y, hxy⟩ := h
  refine ⟨a.data ++ x, y, ?_⟩
  rw [String.data_append, ← hxy]
  simp [List.append_assoc]

theorem defaultTokens_valid : ∀ a ∈ defaultTokens, isEthereumAddress a = true := by
  decide

theorem defaultFacilitators_valid :
    ∀ a ∈ defaultFacilitators, isEthereumAddress a = true := by
  decide

theorem optValid_getD {o : Option (List String)} {d : List String}
    (ho : optAddressesValid o = true) (hd : ∀ a ∈ d, isEthereumAddress a = true) :
    ∀ a ∈ o.getD d, isEthereumAddress a = true := by
  cases o with
  | none => exact hd
  | some l =>
    intro a ha
    have hall : l.all isEthereumAddress = true := by
      simpa [optAddressesValid] using ho
    exact List.all_eq_true.mp hall a ha

theorem overallSafeParse_valid {raw : RawOverallInput} {p : OverallInput}
    (h : overallSafeParse raw = .ok p) :
    (∀ a ∈ p.tokens, isEthereumAddress a = true) ∧
    (∀ a ∈ p.facilitators, isEthereumAddress a = true) ∧
    (∀ a ∈ p.addresses.getD [], isEthereumAddress a = true) := by
  unfold overallSafeParse at h
  split at h
  · rename_i hacc
    unfold overallAccepts at hacc
    simp only [Bool.and_eq_true] at hacc
    obtain ⟨⟨hf, ht⟩, ha⟩ := hacc
    cases h
    exact ⟨optValid_getD ht defaultTokens_valid,
      optValid_getD hf defaultFacilitators_valid,
      optValid_getD ha (by simp)⟩
  · exact Except.noConfusion h

theorem bucketedSafeParse_valid {now : Int} {raw : RawBucketedInput}
    {p : BucketedInput} (h : bucketedSafeParse now raw = .ok p) :
    (∀ a ∈ p.tokens, isEthereumAddress a = true) ∧
    (∀ a ∈ p.facilitators, isEthereumAddress a = true) ∧
    (∀ a ∈ p.addresses.getD [], isEthereumAddress a = true) := by
  unfold bucketedSafeParse at h
  split at h
  · rename_i hacc
    unfold bucketedAccepts at hacc
    simp only [Bool.and_eq_true] at hacc
    obtain ⟨⟨hf, ht⟩, ha⟩ := hacc
    cases h
    exact ⟨optValid_getD ht defaultTokens_valid,
      optValid_getD hf defaultFacilitators_valid,
      optValid_getD ha (by simp)⟩
  · exact Except.noConfusion h

theorem topSellersSafeParse_valid {raw : RawTopSellersInput}
    {p : TopSellersInput} (h : topSellersSafeParse raw = .ok p) :
    (∀ a ∈ p.tokens, isEthereumAddress a = true) ∧
    (∀ a ∈ p.facilitators, isEthereumAddress a = true) ∧
    (∀ a ∈ p.addresses.getD [], isEthereumAddress a = true) ∧
    p.sorting.id ∈ sellerSortIds := by
  unfold topSellersSafeParse at h
  split at h
  · exact Except.noConfusion h
  · rename_i s hs
    split at h
    · rename_i hacc
      unfold topSellersAccepts at hacc
      rw [hs] at hacc
      simp only [Bool.and_eq_true] at hacc
      obtain ⟨⟨⟨hf, ht⟩, ha⟩, hsort⟩ := hacc
      cases h
      refine ⟨optValid_getD ht defaultTokens_valid,
        optValid_getD hf defaultFacilitators_valid,
        optValid_getD ha (by simp), ?_⟩
      simpa using hsort
    · exact Except.noConfusion h

theorem singleStatement_semiTail : singleStatement ";\n  " :=
  ⟨[], (";\n  ").data, by decide, by decide,
    Or.inr ⟨("\n  ").data, by decide, by decide⟩⟩

theorem singleStatement_bucketedTail :
    singleStatement "\nGROUP BY bucket_start\nORDER BY bucket_start ASC;\n  " :=
  ⟨("\nGROUP BY bucket_start\nORDER BY bucket_start ASC").data, (";\n  ").data,
    by decide, by decide, Or.inr ⟨("\n  ").data, by decide, by decide⟩⟩

theorem singleStatement_bucketedFacTail :
    singleStatement
      "\n    ELSE 'Unknown'\n  END, \n  bucket_start\nORDER BY bucket_start ASC;\n  " :=
  ⟨("\n    ELSE 'Unknown'\n  END, \n  bucket_start\nORDER BY bucket_start ASC").data,
    (";\n  ").data, by decide, by decide,
    Or.inr ⟨("\n  ").data, by decide, by decide⟩⟩

set_option maxRecDepth 100000 in
theorem overallSql_props (p : OverallInput)
    (ht : ∀ a ∈ p.tokens, isEthereumAddress a = true)
    (hf : ∀ a ∈ p.facilitators, isEthereumAddress a = true)
    (ha : ∀ a ∈ p.addresses.getD [], isEthereumAddress a = true) :
    startsWithSelect (overallSql p) ∧ readsFromBaseEvents (overallSql p) ∧
      singleStatement (overallSql p) := by
  unfold overallSql
  refine ⟨startsWithSelect_append _ (by decide),
    readsFrom_append_left _ (by decide), singleStatement_of_semiFree ?_⟩
  exact semiFree_append (by decide) (semiFree_append (semiFree_quotedAddresses ht)
    (semiFree_append (by decide) (semiFree_append (semiFree_quotedAddresses hf)
      (semiFree_append (by decide) (semiFree_append (semiFree_addressesClause ha)
        (semiFree_append (by decide) (semiFree_append (semiFree_startDateClause _)
          (semiFree_append (by decide) (semiFree_append (semiFree_endDateClause _)
            (by decide))))))))))

set_option maxRecDepth 100000 in
theorem bucketedSql_props (p : BucketedInput)
    (ht : ∀ a ∈ p.tokens, isEthereumAddress a = true)
    (hf : ∀ a ∈ p.facilitators, isEthereumAddress a = true)
    (ha : ∀ a ∈ p.addresses.getD [], isEthereumAddress a = true) :
    startsWithSelect (bucketedSql p) ∧ readsFromBaseEvents (bucketedSql p) ∧
      singleStatement (bucketedSql p) := by
  unfold bucketedSql
  refine ⟨startsWithSelect_append _ (by decide), ?_, ?_⟩
  · apply readsFrom_append_right
    apply readsFrom_append_right
    apply readsFrom_append_right
    apply readsFrom_append_right
    exact readsFrom_append_left _ (by decide)
  · refine singleStatement_append (by decide) ?_
    refine singleStatement_append (semiFree_intStr _) ?_
    refine singleStatement_append (by decide) ?_
    refine singleStatement_append (semiFree_intStr _) ?_
    refine singleStatement_append (by decide) ?_
    refine singleStatement_append (semiFree_quotedAddresses ht) ?_
    refine singleStatement_append (by decide) ?_
    refine singleStatement_append (semiFree_quotedAddresses hf) ?_
    refine singleStatement_append (by decide) ?_
    refine singleStatement_append (semiFree_addressesClause ha) ?_
    refine singleStatement_append (by decide) ?_
    refine singleStatement_append (semiFree_startDateClause _) ?_
    refine singleStatement_append (by decide) ?_
    refine singleStatement_append (semiFree_endDateClause _) ?_
    exact singleStatement_bucketedTail

set_option maxRecDepth 100000 in
theorem topSellersSql_props (p : TopSellersInput) (limit : Int)
    (ht : ∀ a ∈ p.tokens, isEthereumAddress a = true)
    (hf : ∀ a ∈ p.facilitators, isEthereumAddress a = true)
    (ha : ∀ a ∈ p.addresses.getD [], isEthereumAddress a = true)
    (hs : p.sorting.id ∈ sellerSortIds) :
    startsWithSelect (topSellersSql p limit) ∧
      readsFromBaseEvents (topSellersSql p limit) ∧
      singleStatement (topSellersSql p limit) := by
  have hsid : semiFree p.sorting.id :=
    (by decide : ∀ x ∈ sellerSortIds, semiFree x) _ hs
  unfold topSellersSql
  refine ⟨startsWithSelect_append _ (by decide),
    readsFrom_append_left _ (by decide), ?_⟩
  refine singleStatement_append (by decide) ?_
  refine singleStatement_append (semiFree_quotedAddresses ht) ?_
  refine singleStatement_append (by decide) ?_
  refine singleStatement_append (semiFree_quotedAddresses hf) ?_
  refine singleStatement_append (by decide) ?_
  refine singleStatement_append (semiFree_recipientClause ha) ?_
  refine singleStatement_append (by decide) ?_
  refine singleStatement_append (semiFree_startDateClause _) ?_
  refine singleStatement_append (by decide) ?_
  refine singleStatement_append (semiFree_endDateClause _) ?_
  refine singleStatement_append (by decide) ?_
  refine singleStatement_append hsid ?_
  refine singleStatement_append (by decide) ?_
  refine singleStatement_append (semiFree_sortDir _) ?_
  refine singleStatement_append (by decide) ?_
  exact singleStatement_append (semiFree_intStr _) singleStatement_semiTail

set_option maxRecDepth 100000 in
theorem topFacilitatorsSql_props (p : TopFacilitatorsInput)
    (ht : ∀ a ∈ p.tokens, isEthereumAddress a = true)
    (hs : p.sorting.id ∈ listTopFacilitatorsSortIds) :
    startsWithSelect (topFacilitatorsSql p) ∧
      readsFromBaseEvents (topFacilitatorsSql p) ∧
      singleStatement (topFacilitatorsSql p) := by
  have hsid : semiFree p.sorting.id :=
    (by decide : ∀ x ∈ listTopFacilitatorsSortIds, semiFree x) _ hs
  unfold topFacilitatorsSql
  refine ⟨startsWithSelect_append _ (by decide), ?_, singleStatement_of_semiFree ?_⟩
  · apply readsFrom_append_right
    apply readsFrom_append_right
    exact readsFrom_append_left _ (by decide)
  · exact semiFree_append (by decide) (semiFree_append semiFree_caseBranches
      (semiFree_append (by decide) (semiFree_append (semiFree_quotedAddresses ht)
        (semiFree_append (by decide) (semiFree_append semiFree_allFacQuoted
          (semiFree_append (by decide)
            (semiFree_append (semiFree_startDateClause _)
              (semiFree_append (by decide)
                (semiFree_append (semiFree_endDateClause _)
                  (semiFree_append (by decide)
                    (semiFree_append semiFree_caseBranches
                      (semiFree_append (by decide)
                        (semiFree_append hsid
                          (semiFree_append (by decide)
                            (semiFree_append (semiFree_sortDir _)
                              (semiFree_append (by decide)
                                (semiFree_intStr _)))))))))))))))))

set_option maxRecDepth 100000 in
theorem bucketedFacilitatorsSql_props (startMs endMs numBuckets : Int)
    (tokens : List String)
    (ht : ∀ a ∈ tokens, isEthereumAddress a = true) :
    startsWithSelect (bucketedFacilitatorsSql startMs endMs numBuckets tokens) ∧
      readsFromBaseEvents (bucketedFacilitatorsSql startMs endMs numBuckets tokens) ∧
      singleStatement (bucketedFacilitatorsSql startMs endMs numBuckets tokens) := by
  unfold bucketedFacilitatorsSql
  refine ⟨startsWithSelect_append _ (by decide), ?_, ?_⟩
  · apply readsFrom_append_right
    apply readsFrom_append_right
    apply readsFrom_append_right
    apply readsFrom_append_right
    apply readsFrom_append_right
    apply readsFrom_append_right
    exact readsFrom_append_left _ (by decide)
  · refine singleStatement_append (by decide) ?_
    refine singleStatement_append (semiFree_intStr _) ?_
    refine singleStatement_append (by decide) ?_
    refine singleStatement_append (semiFree_intStr _) ?_
    refine singleStatement_append (by decide) ?_
    refine singleStatement_append semiFree_caseBranches ?_
    refine singleStatement_append (by decide) ?_
    refine singleStatement_append (semiFree_quotedAddresses ht) ?_
    refine singleStatement_append (by decide) ?_
    refine singleStatement_append semiFree_allFacQuoted ?_
    refine singleStatement_append (by decide) ?_
    refine singleStatement_append (semiFree_startDateClause _) ?_
    refine singleStatement_append (by decide) ?_
    refine singleStatement_append
      (semiFree_append (semiFree_endDateClause _) (by decide)) ?_
    exact singleStatement_append semiFree_caseBranches singleStatement_bucketedFacTail

/-- C8: for every input accepted by the respective schema, the SQL string
assembled by each of the five operations — overall statistics, bucketed
statistics, top sellers, top facilitators, bucketed facilitators
statistics — is a single SELECT statement reading from `base.events`: it
starts with `SELECT`, contains `FROM base.events`, and holds exactly one
statement (any `;` is final and followed only by whitespace), so it
contains no data-modifying statement (no INSERT, UPDATE, DELETE or DDL). -/
theorem sql_queries_read_only :
    (∀ (raw : RawOverallInput) (p : OverallInput), overallSafeParse raw = .ok p →
      startsWithSelect (overallSql p) ∧ readsFromBaseEvents (overallSql p) ∧
        singleStatement (overallSql p)) ∧
    (∀ (now : Int) (raw : RawBucketedInput) (p : BucketedInput),
      bucketedSafeParse now raw = .ok p →
      startsWithSelect (bucketedSql p) ∧ readsFromBaseEvents (bucketedSql p) ∧
        singleStatement (bucketedSql p)) ∧
    (∀ (raw : RawTopSellersInput) (p : TopSellersInput) (limit : Int),
      topSellersSafeParse raw = .ok p →
      startsWithSelect (topSellersSql p limit) ∧
        readsFromBaseEvents (topSellersSql p limit) ∧
        singleStatement (topSellersSql p limit)) ∧
    (∀ p : TopFacilitatorsInput,
      (∀ a ∈ p.tokens, isEthereumAddress a = true) →
      p.sorting.id ∈ listTopFacilitatorsSortIds →
      startsWithSelect (topFacilitatorsSql p) ∧
        readsFromBaseEvents (topFacilitatorsSql p) ∧
        singleStatement (topFacilitatorsSql p)) ∧
    (∀ (startMs endMs numBuckets : Int) (tokens : List String),
      (∀ a ∈ tokens, isEthereumAddress a = true) →
      startsWithSelect (bucketedFacilitatorsSql startMs endMs numBuckets tokens) ∧
        readsFromBaseEvents (bucketedFacilitatorsSql startMs endMs numBuckets tokens) ∧
        singleStatement (bucketedFacilitatorsSql startMs endMs numBuckets tokens)) := by
  refine ⟨?_, ?_, ?_, ?_, ?_⟩
  · intro raw p h
    obtain ⟨ht, hf, ha⟩ := overallSafeParse_valid h
    exact overallSql_props p ht hf ha
  · intro now raw p h
    obtain ⟨ht, hf, ha⟩ := bucketedSafeParse_valid h
    exact bucketedSql_props p ht hf ha
  · intro raw p limit h
    obtain ⟨ht, hf, ha, hs⟩ := topSellersSafeParse_valid h
    exact topSellersSql_props p limit ht hf ha hs
  · intro p ht hs
    exact topFacilitatorsSql_props p ht hs
  · intro startMs endMs numBuckets tokens ht
    exact bucketedFacilitatorsSql_props startMs endMs numBuckets tokens ht

/-- Witness for `sql_queries_read_only`: each operation at a concrete
schema-accepted input. -/
theorem sql_queries_read_only_witness :
    (startsWithSelect (overallSql ⟨defaultFacilitators, defaultTokens, none, none, none⟩) ∧
      readsFromBaseEvents (overallSql ⟨defaultFacilitators, defaultTokens, none, none, none⟩) ∧
      singleStatement (overallSql ⟨defaultFacilitators, defaultTokens, none, none, none⟩)) ∧
    (startsWithSelect (bucketedSql ⟨defaultFacilitators, defaultTokens, none, subMonthMs 0, 0, 48⟩) ∧
      readsFromBaseEvents (bucketedSql ⟨defaultFacilitators, defaultTokens, none, subMonthMs 0, 0, 48⟩) ∧
      singleStatement (bucketedSql ⟨defaultFacilitators, defaultTokens, none, subMonthMs 0, 0, 48⟩)) ∧
    (startsWithSelect (topSellersSql ⟨defaultFacilitators, defaultTokens, ⟨"tx_count", true⟩, none, none, none⟩ 10) ∧
      readsFromBaseEvents (topSellersSql ⟨defaultFacilitators, defaultTokens, ⟨"tx_count", true⟩, none, none, none⟩ 10) ∧
      singleStatement (topSellersSql ⟨defaultFacilitators, defaultTokens, ⟨"tx_count", true⟩, none, none, none⟩ 10)) ∧
    (startsWithSelect (topFacilitatorsSql ⟨none, none, 100, ⟨"tx_count", true⟩, defaultTokens⟩) ∧
      readsFromBaseEvents (topFacilitatorsSql ⟨none, none, 100, ⟨"tx_count", true⟩, defaultTokens⟩) ∧
      singleStatement (topFacilitatorsSql ⟨none, none, 100, ⟨"tx_count", true⟩, defaultTokens⟩)) ∧
    (startsWithSelect (bucketedFacilitatorsSql 0 86400000 48 defaultTokens) ∧
      readsFromBaseEvents (bucketedFacilitatorsSql 0 86400000 48 defaultTokens) ∧
      singleStatement (bucketedFacilitatorsSql 0 86400000 48 defaultTokens)) :=
  ⟨sql_queries_read_only.1 ⟨none, none, none, none, none⟩ _ rfl,
    sql_queries_read_only.2.1 0 ⟨none, none, none, none, none, none⟩ _ rfl,
    sql_queries_read_only.2.2.1 ⟨none, none, some ⟨"tx_count", true⟩, none, none, none⟩ _ 10 rfl,
    sql_queries_read_only.2.2.2.1 ⟨none, none, 100, ⟨"tx_count", true⟩, defaultTokens⟩
      defaultTokens_valid (by decide),
    sql_queries_read_only.2.2.2.2 0 86400000 48 defaultTokens defaultTokens_valid⟩

end X402Scan
